import Mathlib

/-!
Verification development for the directory-tree core of an S3-backed FUSE
filesystem (`src/dir_tree.c`).  The C data structures and the functions the
claims refer to are shallowly embedded below: the process-wide inode hash
table becomes an association list from inode numbers to entry records, each
directory's `h_dir_tree` children hash becomes an association list from
basenames to child inode numbers, wall-clock times are integers, and the
asynchronous callback pipelines are modelled by passing the outcome of the
remote interaction (connection-pool acquisition, HTTP completion, listing
contents) as an explicit argument to the operation.
-/

set_option autoImplicit false

namespace YarfDirTree

/-- Association-list lookup, modelling `g_hash_table_lookup`. -/
def alist_lookup {α : Type} [DecidableEq α] {β : Type} : List (α × β) → α → Option β
  | [], _ => none
  | (k', v) :: rest, k => if k' = k then some v else alist_lookup rest k

/-- Association-list insert, modelling `g_hash_table_insert` (replaces the
value when the key is present, otherwise adds the pair). -/
def alist_insert {α : Type} [DecidableEq α] {β : Type} : List (α × β) → α → β → List (α × β)
  | [], k, v => [(k, v)]
  | (k', v') :: rest, k, v =>
    if k' = k then (k, v) :: rest else (k', v') :: alist_insert rest k v

/-- Association-list removal, modelling `g_hash_table_remove` (drops the
first pair with the given key). -/
def alist_remove {α : Type} [DecidableEq α] {β : Type} : List (α × β) → α → List (α × β)
  | [], _ => []
  | (k', v') :: rest, k => if k' = k then rest else (k', v') :: alist_remove rest k

theorem alist_lookup_insert {α : Type} [DecidableEq α] {β : Type}
    (l : List (α × β)) (k : α) (v : β) : alist_lookup (alist_insert l k v) k = some v := by
  induction l with
  | nil => simp [alist_insert, alist_lookup]
  | cons p rest ih =>
    by_cases h : p.1 = k
    · simp [alist_insert, alist_lookup, h]
    · simp [alist_insert, alist_lookup, h, ih]

theorem alist_lookup_insert_ne {α : Type} [DecidableEq α] {β : Type}
    (l : List (α × β)) (k k' : α) (v : β) (h : k ≠ k') :
    alist_lookup (alist_insert l k v) k' = alist_lookup l k' := by
  induction l with
  | nil => simp [alist_insert, alist_lookup, h]
  | cons p rest ih =>
    by_cases hp : p.1 = k
    · simp [alist_insert, alist_lookup, hp, h]
    · simp [alist_insert, alist_lookup, hp, ih]

/-- `DirEntryType` from `dir_tree.h`: an entry is a directory or a file. -/
inductive DirEntryType where
  | DET_dir : DirEntryType
  | DET_file : DirEntryType
deriving DecidableEq, Repr

/-- One formatted directory-buffer item, as produced by `rfuse_add_dirbuf`
(basename, inode, size).  The kernel adapter's byte formatting is opaque;
two buffers are byte-identical iff their item lists are equal. -/
structure DirItem where
  name : String
  ino : Nat
  size : Nat
deriving DecidableEq, Repr

/-- `struct _DirEntry` of `dir_tree.c`.  `h_dir_tree` maps a basename to the
child's inode number (the C table stores the pointer; the inode table is the
single owner here).  The pair `dir_cache`/`dir_cache_size` is collapsed to an
`Option`: `none` stands for `dir_cache == NULL && dir_cache_size == 0`, the
joint state the C code always keeps (both are reset and both are set
together). -/
structure DirEntry where
  ino : Nat
  parent_ino : Nat
  basename : String
  fullpath : String
  type : DirEntryType
  age : Nat
  removed : Bool
  is_modified : Bool
  size : Nat
  mode : Nat
  ctime : Int
  dir_cache : Option (List DirItem)
  dir_cache_created : Int
  dir_cache_updating : Bool
  h_dir_tree : Option (List (String × Nat))
  is_updating : Bool
  updated_time : Int
  access_time : Int
  etag : Option String
  version_id : Option String
  content_type : Option String
  xattr_time : Int
deriving DecidableEq, Repr

/-- The children table of an entry, empty when `h_dir_tree` is NULL. -/
def DirEntry.h_children (e : DirEntry) : List (String × Nat) := e.h_dir_tree.getD []

/-- `dir_cache_size`: length of the stored buffer, `0` when NULL. -/
def DirEntry.dirCacheSize (e : DirEntry) : Nat :=
  match e.dir_cache with
  | none => 0
  | some b => b.length

/-- `struct _DirTree`: inode table, next inode value and the configured
file/directory modes (already combined with `S_IFREG`/`S_IFDIR`). -/
structure DirTree where
  h_inodes : List (Nat × DirEntry)
  max_ino : Nat
  fmode : Nat
  dmode : Nat
deriving DecidableEq, Repr

/-- Configuration knobs read through `conf_get_uint`/`conf_get_boolean`. -/
structure Conf where
  dir_cache_max_time : Nat
  file_cache_max_time : Nat
  check_empty_files : Bool
  force_head_requests_on_lookup : Bool
deriving DecidableEq, Repr

/-- `FUSE_ROOT_ID`. -/
def FUSE_ROOT_ID : Nat := 1

/-- `FIVEG`, the single-copy size limit checked by rename. -/
def FIVEG : Nat := 5368709120

/-- `dir_tree_entry_modified`: invalidate a directory's own listing cache,
or, for a file, the cache of its parent directory (the recursion of the C
function bottoms out after one step because the parent branch only recurses
when the parent is itself a directory). -/
def dir_tree_entry_modified (t : DirTree) (ino : Nat) : DirTree :=
  match alist_lookup t.h_inodes ino with
  | none => t
  | some en =>
    if en.type = DirEntryType.DET_dir then
      { t with h_inodes := alist_insert t.h_inodes ino { en with dir_cache := none } }
    else
      match alist_lookup t.h_inodes en.parent_ino with
      | none => t
      | some p =>
        if p.type = DirEntryType.DET_dir then
          { t with h_inodes := alist_insert t.h_inodes en.parent_ino { p with dir_cache := none } }
        else t

/-- `dir_tree_add_entry`: create a new entry under `parent_ino` (0 is used
only for the root).  Fails when the parent is missing, when the parent is
not a directory (the C code would dereference a NULL children table), or
when a child of the same basename but the other type already exists. -/
def dir_tree_add_entry (t : DirTree) (bn : String) (mode : Nat) (ty : DirEntryType)
    (parent_ino : Nat) (size : Nat) (ctime : Int) (now : Int) : Option (DirTree × Nat) :=
  if parent_ino = 0 then
    let en : DirEntry :=
      { ino := t.max_ino, parent_ino := 0, basename := bn, fullpath := "",
        type := ty, age := 0, removed := false, is_modified := false, size := size,
        mode := mode, ctime := ctime, dir_cache := none, dir_cache_created := 0,
        dir_cache_updating := false,
        h_dir_tree := if ty = DirEntryType.DET_dir then some [] else none,
        is_updating := false, updated_time := 0, access_time := now,
        etag := none, version_id := none, content_type := none, xattr_time := 0 }
    some ({ t with h_inodes := alist_insert t.h_inodes en.ino en, max_ino := t.max_ino + 1 },
          en.ino)
  else
    match alist_lookup t.h_inodes parent_ino with
    | none => none
    | some parent_en =>
      if parent_en.h_dir_tree = none then none
      else
        let clash : Bool :=
          match (alist_lookup parent_en.h_children bn).bind (alist_lookup t.h_inodes) with
          | some ex => ex.type ≠ ty
          | none => false
        if clash then none
        else
          let t1 := dir_tree_entry_modified t parent_ino
          let fullpath :=
            if parent_ino = FUSE_ROOT_ID then bn else parent_en.fullpath ++ "/" ++ bn
          let en : DirEntry :=
            { ino := t1.max_ino, parent_ino := parent_ino, basename := bn,
              fullpath := fullpath, type := ty, age := parent_en.age, removed := false,
              is_modified := false, size := size, mode := mode, ctime := ctime,
              dir_cache := none, dir_cache_created := 0, dir_cache_updating := false,
              h_dir_tree := if ty = DirEntryType.DET_dir then some [] else none,
              is_updating := false, updated_time := 0, access_time := now,
              etag := none, version_id := none, content_type := none, xattr_time := 0 }
          let t2 := { t1 with h_inodes := alist_insert t1.h_inodes en.ino en,
                              max_ino := t1.max_ino + 1 }
          let t3 :=
            match alist_lookup t2.h_inodes parent_ino with
            | some p =>
              let p2 := { p with h_dir_tree := some (alist_insert p.h_children bn en.ino) }
              { t2 with h_inodes := alist_insert t2.h_inodes parent_ino p2 }
            | none => t2
          some (dir_tree_entry_modified t3 parent_ino, en.ino)

/-- `dir_tree_create`: fresh tree whose only entry is the root directory
(`FUSE_ROOT_ID`, parent inode 0, empty fullpath). -/
def dir_tree_create (fmode dmode : Nat) (now : Int) : DirTree :=
  let t0 : DirTree := { h_inodes := [], max_ino := FUSE_ROOT_ID, fmode := fmode, dmode := dmode }
  match dir_tree_add_entry t0 "/" dmode DirEntryType.DET_dir 0 0 now now with
  | some (t, _) => t
  | none => t0

/-- `dir_tree_is_cache_expired`: never filled, or older than
`dir_cache_max_time` (a clock regression counts as fresh), or the directory
is locally modified. -/
def dir_tree_is_cache_expired (c : Conf) (now : Int) (en : DirEntry) : Bool :=
  if en.dirCacheSize = 0 ∨ en.dir_cache_created = 0 then true
  else if now < en.dir_cache_created then false
  else if now - en.dir_cache_created > (c.dir_cache_max_time : Int) then true
  else en.is_modified

/-- `dir_tree_start_update`: bump the directory's generation counter. -/
def dir_tree_start_update (t : DirTree) (ino : Nat) : DirTree :=
  match alist_lookup t.h_inodes ino with
  | none => t
  | some en => { t with h_inodes := alist_insert t.h_inodes ino { en with age := en.age + 1 } }

/-- `dir_tree_stop_update_on_remove_child_cb` predicate: a child is swept
when its age fell behind its parent's, it is not locally modified, its last
access is at least `dir_cache_max_time` in the past (the difference is
truncated to 32 bits as in the C cast), and it is not a directory. -/
def sweep_should_remove (c : Conf) (t : DirTree) (now : Int) (ci : Nat) : Bool :=
  match alist_lookup t.h_inodes ci with
  | none => false
  | some en =>
    match alist_lookup t.h_inodes en.parent_ino with
    | none => false
    | some parent_en =>
      decide (en.age < parent_en.age) && !en.is_modified && decide (now > en.access_time) &&
      decide (((now - en.access_time).toNat % 4294967296) ≥ c.dir_cache_max_time) &&
      decide (en.type ≠ DirEntryType.DET_dir)

/-- `dir_tree_stop_update`: the generation sweep; removes every swept child
from the inode table first and then from the parent's children table. -/
def dir_tree_stop_update (c : Conf) (t : DirTree) (parent_ino : Nat) (now : Int) : DirTree :=
  match alist_lookup t.h_inodes parent_ino with
  | none => t
  | some parent_en =>
    if parent_en.type ≠ DirEntryType.DET_dir then t
    else
      let victims := parent_en.h_children.filter fun p => sweep_should_remove c t now p.2
      let keep := parent_en.h_children.filter fun p => !(sweep_should_remove c t now p.2)
      let inodes1 := victims.foldl (fun m p => alist_remove m p.2) t.h_inodes
      match alist_lookup inodes1 parent_ino with
      | none => { t with h_inodes := inodes1 }
      | some p1 =>
        { t with h_inodes := alist_insert inodes1 parent_ino { p1 with h_dir_tree := some keep } }

/-- `dir_tree_update_entry`: refresh (or create) the child reported by a
directory listing; an existing child keeps its inode and gets the parent's
current age, the reported size and a cleared tombstone. -/
def dir_tree_update_entry (t : DirTree) (ty : DirEntryType) (parent_ino : Nat)
    (name : String) (size : Nat) (last_modified : Int) (now : Int) : Option (DirTree × Nat) :=
  match alist_lookup t.h_inodes parent_ino with
  | none => none
  | some parent_en =>
    if parent_en.type ≠ DirEntryType.DET_dir then none
    else
      match alist_lookup parent_en.h_children name with
      | some ci =>
        match alist_lookup t.h_inodes ci with
        | some en =>
          let en2 := { en with age := parent_en.age, size := size, removed := false }
          some ({ t with h_inodes := alist_insert t.h_inodes ci en2 }, ci)
        | none =>
          let mode := if ty = DirEntryType.DET_file then t.fmode else t.dmode
          dir_tree_add_entry t name mode ty parent_ino size last_modified now
      | none =>
        let mode := if ty = DirEntryType.DET_file then t.fmode else t.dmode
        dir_tree_add_entry t name mode ty parent_ino size last_modified now

/-- `DirOpData`: the per-open-directory-handle request buffer. -/
structure DirOpData where
  buf : Option (List DirItem)
deriving DecidableEq, Repr

/-- Outcome of a readdir request as delivered through `dir_tree_readdir_cb`. -/
inductive ReaddirResult where
  | failure : ReaddirResult
  | ok : List DirItem → ReaddirResult
deriving DecidableEq, Repr

/-- One `(type, basename, size, last-modified)` tuple reported by the
store's directory listing. -/
structure ListedEntry where
  ty : DirEntryType
  name : String
  size : Nat
  mtime : Int
deriving DecidableEq, Repr

/-- Outcome of the asynchronous part of a listing refresh: the connection
pool can refuse a client, the HTTP listing can fail, or it succeeds with a
list of reported tuples. -/
inductive ListingOutcome where
  | poolFail : ListingOutcome
  | httpFail : ListingOutcome
  | listed : List ListedEntry → ListingOutcome
deriving DecidableEq, Repr

/-- The `while (g_hash_table_iter_next ...)` loop of
`dir_tree_fill_on_dir_buf_cb`: start from the two implicit entries "." and
".." (both carrying the directory's own inode) and append each child whose
age has not fallen behind the directory's and which is not tombstoned. -/
def build_dir_blob (t : DirTree) (ino : Nat) (e : DirEntry) : List DirItem :=
  e.h_children.foldl
    (fun acc p =>
      match alist_lookup t.h_inodes p.2 with
      | none => acc
      | some ce =>
        if decide (ce.age ≥ e.age) && !ce.removed then
          acc ++ [{ name := ce.basename, ino := ce.ino, size := ce.size }]
        else acc)
    [{ name := ".", ino := ino, size := 0 }, { name := "..", ino := ino, size := 0 }]

/-- `dir_tree_fill_on_dir_buf_cb`: terminal completion of a listing
refresh.  Clears the single-flight guard and `is_modified` before checking
`success`; on success rebuilds the directory buffer, stores it in the
directory's `dir_cache`, copies it into the request handle's buffer and
stamps `dir_cache_created`. -/
def dir_tree_fill_on_dir_buf_cb (t : DirTree) (ino : Nat) (dop : Option DirOpData)
    (success : Bool) (now : Int) : DirTree × Option DirOpData × ReaddirResult :=
  match alist_lookup t.h_inodes ino with
  | none => (t, dop, ReaddirResult.failure)
  | some en0 =>
    let en1 := { en0 with dir_cache_updating := false, is_modified := false }
    let t1 := { t with h_inodes := alist_insert t.h_inodes ino en1 }
    if !success then (t1, dop, ReaddirResult.failure)
    else
      let blob := build_dir_blob t1 ino en1
      let en2 := { en1 with dir_cache := some blob, dir_cache_created := now }
      let t2 := { t1 with h_inodes := alist_insert t1.h_inodes ino en2 }
      let dop2 : Option DirOpData :=
        match dop with
        | some _ => some { buf := some blob }
        | none => none
      (t2, dop2, ReaddirResult.ok blob)

/-- Modelled from the spec: `http_connection_get_directory_listing` lives in
`http_connection.c`, which is not part of the sources; per the spec it
consumes a fullpath, emits `(basename, size, last_modified, type)` tuples
through `dir_tree_update_entry`, runs the generation sweep
(`dir_tree_stop_update`) and then invokes the terminal completion
`dir_tree_fill_on_dir_buf_cb`.  A failed listing invokes the terminal
completion with `success = false`. -/
def get_directory_listing (c : Conf) (t : DirTree) (ino : Nat) (dop : Option DirOpData)
    (out : ListingOutcome) (now : Int) : DirTree × Option DirOpData × ReaddirResult :=
  match out with
  | ListingOutcome.poolFail => (t, dop, ReaddirResult.failure)
  | ListingOutcome.httpFail => dir_tree_fill_on_dir_buf_cb t ino dop false now
  | ListingOutcome.listed items =>
    let t1 := items.foldl
      (fun acc it =>
        match dir_tree_update_entry acc it.ty ino it.name it.size it.mtime now with
        | some (acc2, _) => acc2
        | none => acc) t
    let t2 := dir_tree_stop_update c t1 ino now
    dir_tree_fill_on_dir_buf_cb t2 ino dop true now

/-- `dir_tree_fill_dir_buf` (readdir): serve the per-handle buffer if it is
populated; otherwise serve a fresh directory cache; otherwise fail a
continuation read (`off > 0`) without a buffer; otherwise reset the cache
and either dispatch a listing refresh (when no refresh is in flight and the
cache timestamp is stale) or synthesise a buffer from the current children
without contacting the store. -/
def dir_tree_fill_dir_buf (c : Conf) (t : DirTree) (ino : Nat) (off : Int)
    (dop : Option DirOpData) (now : Int) (env : ListingOutcome) :
    DirTree × Option DirOpData × ReaddirResult :=
  match alist_lookup t.h_inodes ino with
  | none => (t, dop, ReaddirResult.failure)
  | some en =>
    if en.type ≠ DirEntryType.DET_dir then (t, dop, ReaddirResult.failure)
    else
      let hasbuf : Option (List DirItem) :=
        match dop with
        | some d => d.buf
        | none => none
      match hasbuf with
      | some b => (t, dop, ReaddirResult.ok b)
      | none =>
        if !(dir_tree_is_cache_expired c now en) then
          match dop with
          | some _ =>
            let nb := en.dir_cache.getD []
            (t, some { buf := some nb }, ReaddirResult.ok nb)
          | none => (t, dop, ReaddirResult.ok (en.dir_cache.getD []))
        else if off > 0 then (t, dop, ReaddirResult.failure)
        else
          let en1 := { en with dir_cache := none }
          let t1 := { t with h_inodes := alist_insert t.h_inodes ino en1 }
          if !en1.dir_cache_updating &&
              (decide (en1.dir_cache_created = 0) ||
               decide (now - en1.dir_cache_created > (c.dir_cache_max_time : Int))) then
            match env with
            | ListingOutcome.poolFail => (t1, dop, ReaddirResult.failure)
            | other =>
              let en2 := { en1 with dir_cache_updating := true, age := en1.age + 1 }
              let t2 := { t1 with h_inodes := alist_insert t1.h_inodes ino en2 }
              get_directory_listing c t2 ino dop other now
          else
            dir_tree_fill_on_dir_buf_cb t1 ino dop true now

/-- What a `dir_tree_lookup` call does before any server interaction:
either an immediate completion, or the dispatch of a listing refresh (with
the retry continuation `dir_tree_on_lookup_read`), or the dispatch of one
of the HEAD requests. -/
inductive LookupAction where
  | err : LookupAction
  | found : Nat → Nat → Nat → Int → LookupAction
  | notFoundRemoved : LookupAction
  | dispatchRefresh : LookupAction
  | dispatchHeadModified : Nat → LookupAction
  | dispatchHeadPolicy : Nat → LookupAction
  | dispatchHeadNotFound : String → LookupAction
deriving DecidableEq, Repr

/-- `dir_tree_lookup` up to its first suspension point: resolve against the
parent's children under a fresh cache, honour the negative cache of a
recently accessed tombstone, refresh a modified file over HEAD, apply the
`check_empty_files` / `force_head_requests_on_lookup` policies, and
otherwise answer from the cached attributes after touching `access_time`. -/
def dir_tree_lookup_step (c : Conf) (t : DirTree) (parent_ino : Nat) (name : String)
    (now : Int) : DirTree × LookupAction :=
  match alist_lookup t.h_inodes parent_ino with
  | none => (t, LookupAction.err)
  | some dir_en =>
    if dir_en.type ≠ DirEntryType.DET_dir then (t, LookupAction.err)
    else if dir_tree_is_cache_expired c now dir_en then (t, LookupAction.dispatchRefresh)
    else
      match alist_lookup dir_en.h_children name with
      | none => (t, LookupAction.dispatchHeadNotFound name)
      | some ci =>
        match alist_lookup t.h_inodes ci with
        | none => (t, LookupAction.dispatchHeadNotFound name)
        | some en =>
          if en.removed &&
              (decide (now - (c.file_cache_max_time : Int) < en.access_time) ||
               decide (now - en.access_time < (c.file_cache_max_time : Int))) then
            (t, LookupAction.notFoundRemoved)
          else
            let en1 := { en with access_time := now }
            let t1 := { t with h_inodes := alist_insert t.h_inodes ci en1 }
            if en1.is_modified && !en1.is_updating &&
                decide (en1.type ≠ DirEntryType.DET_dir) then
              let en2 := { en1 with is_updating := true }
              ({ t1 with h_inodes := alist_insert t1.h_inodes ci en2 },
               LookupAction.dispatchHeadModified ci)
            else if !en1.is_updating && decide (en1.type = DirEntryType.DET_file) &&
                decide (now ≥ en1.updated_time) &&
                decide (now - en1.updated_time ≥ (c.dir_cache_max_time : Int)) &&
                ((c.check_empty_files && decide (en1.size = 0)) ||
                 c.force_head_requests_on_lookup) then
              let en2 := { en1 with is_updating := true }
              ({ t1 with h_inodes := alist_insert t1.h_inodes ci en2 },
               LookupAction.dispatchHeadPolicy ci)
            else
              (t1, LookupAction.found en1.ino en1.mode en1.size en1.ctime)

/-- `dir_tree_file_create`: reuse an existing child of the same basename
(clearing its tombstone and refreshing `access_time` and `age`) or add a
fresh file entry; mark the entry `is_modified`.  Returns the entry's inode
on success (the `fileio_create` handle is outside this model). -/
def dir_tree_file_create (t : DirTree) (parent_ino : Nat) (name : String) (mode : Nat)
    (now : Int) : DirTree × Option Nat :=
  match alist_lookup t.h_inodes parent_ino with
  | none => (t, none)
  | some dir_en =>
    if dir_en.type ≠ DirEntryType.DET_dir then (t, none)
    else
      match alist_lookup dir_en.h_children name with
      | none =>
        match dir_tree_add_entry t name mode DirEntryType.DET_file parent_ino 0 now now with
        | none => (t, none)
        | some (t1, i) =>
          match alist_lookup t1.h_inodes i with
          | none => (t1, none)
          | some en =>
            ({ t1 with h_inodes := alist_insert t1.h_inodes i { en with is_modified := true } },
             some i)
      | some ci =>
        match alist_lookup t.h_inodes ci with
        | none =>
          match dir_tree_add_entry t name mode DirEntryType.DET_file parent_ino 0 now now with
          | none => (t, none)
          | some (t1, i) =>
            match alist_lookup t1.h_inodes i with
            | none => (t1, none)
            | some en =>
              ({ t1 with h_inodes := alist_insert t1.h_inodes i { en with is_modified := true } },
               some i)
        | some en =>
          let en1 := { en with removed := false, access_time := now, age := dir_en.age }
          let t1 := { t with h_inodes := alist_insert t.h_inodes ci en1 }
          let t2 := dir_tree_entry_modified t1 parent_ino
          match alist_lookup t2.h_inodes ci with
          | none => (t2, none)
          | some en2 =>
            ({ t2 with h_inodes := alist_insert t2.h_inodes ci { en2 with is_modified := true } },
             some ci)

/-- `dir_tree_file_remove_on_con_data_cb`: completion of the DELETE issued
for an unlink.  The entry is looked up again; when still present it is
tombstoned (`removed := true`, `age := 0`) and the parent's listing cache
is invalidated, and the DELETE's `success` flag is passed through to the
completion callback.  The returned `Bool` is the value handed to
`file_remove_cb`. -/
def dir_tree_file_remove_on_con_data_cb (t : DirTree) (ino : Nat) (success : Bool) :
    DirTree × Bool :=
  match alist_lookup t.h_inodes ino with
  | none => (t, false)
  | some en =>
    let en1 := { en with removed := true, age := 0 }
    let t1 := { t with h_inodes := alist_insert t.h_inodes ino en1 }
    (dir_tree_entry_modified t1 ino, success)

/-- `dir_tree_file_remove`: verify the entry is a file, then issue the
DELETE.  `env = none` models a pool or dispatch failure before any
completion (the callback fires with failure and the tree is untouched);
`env = some s` models the DELETE completing with success flag `s`. -/
def dir_tree_file_remove (t : DirTree) (ino : Nat) (env : Option Bool) : DirTree × Bool :=
  match alist_lookup t.h_inodes ino with
  | none => (t, false)
  | some en =>
    if en.type ≠ DirEntryType.DET_file then (t, false)
    else
      match env with
      | none => (t, false)
      | some s => dir_tree_file_remove_on_con_data_cb t ino s

/-- `dir_tree_file_unlink`: resolve the basename under the parent and
delegate to `dir_tree_file_remove`. -/
def dir_tree_file_unlink (t : DirTree) (parent_ino : Nat) (name : String)
    (env : Option Bool) : DirTree × Bool :=
  match alist_lookup t.h_inodes parent_ino with
  | none => (t, false)
  | some parent_en =>
    match alist_lookup parent_en.h_children name with
    | none => (t, false)
    | some ci => dir_tree_file_remove t ci env

/-- `dir_tree_dir_remove` (rmdir): refuse unless the target is a directory
all of whose children are tombstoned; then tombstone it locally
(`removed := true`, `age := 0`) and invalidate the parent's listing cache.
No server request is involved. -/
def dir_tree_dir_remove (t : DirTree) (parent_ino : Nat) (name : String) : DirTree × Bool :=
  match alist_lookup t.h_inodes parent_ino with
  | none => (t, false)
  | some parent_en =>
    if parent_en.type ≠ DirEntryType.DET_dir then (t, false)
    else
      match alist_lookup parent_en.h_children name with
      | none => (t, false)
      | some ci =>
        match alist_lookup t.h_inodes ci with
        | none => (t, false)
        | some en =>
          if en.type ≠ DirEntryType.DET_dir ∨ en.h_dir_tree = none then (t, false)
          else
            let entries_removed := en.h_children.all fun p =>
              match alist_lookup t.h_inodes p.2 with
              | none => true
              | some ce => ce.removed
            if !entries_removed then (t, false)
            else
              let en1 := { en with removed := true, age := 0 }
              let t1 := { t with h_inodes := alist_insert t.h_inodes ci en1 }
              (dir_tree_entry_modified t1 parent_ino, true)

/-- `dir_tree_dir_create` (mkdir): if no child of that basename exists, add
a fresh directory entry; otherwise convert the existing entry in place
(type becomes directory, a children table is allocated if absent, the
tombstone is cleared, the directory cache buffer is discarded).  In both
cases the parent is marked modified and the entry ends with
`is_modified = false`, `removed = false`, `mode = dtree->dmode` (the
caller-supplied mode is ignored) and `age = parent.age`.  Purely local: no
server request. -/
def dir_tree_dir_create (t : DirTree) (parent_ino : Nat) (name : String) (mode : Nat)
    (now : Int) : DirTree × Option Nat :=
  match alist_lookup t.h_inodes parent_ino with
  | none => (t, none)
  | some dir_en =>
    if dir_en.type ≠ DirEntryType.DET_dir then (t, none)
    else
      let step2 : Option (DirTree × Nat) :=
        match alist_lookup dir_en.h_children name with
        | none => dir_tree_add_entry t name mode DirEntryType.DET_dir parent_ino 10 now now
        | some ci =>
          match alist_lookup t.h_inodes ci with
          | none => dir_tree_add_entry t name mode DirEntryType.DET_dir parent_ino 10 now now
          | some en =>
            let en1 := { en with type := DirEntryType.DET_dir,
                                 h_dir_tree := some en.h_children,
                                 removed := false, access_time := now, dir_cache := none }
            some ({ t with h_inodes := alist_insert t.h_inodes ci en1 }, ci)
      match step2 with
      | none => (t, none)
      | some (t1, i) =>
        let t2 :=
          match alist_lookup t1.h_inodes parent_ino with
          | none => t1
          | some p =>
            let p1 := { p with is_modified := true }
            { t1 with h_inodes := alist_insert t1.h_inodes parent_ino p1 }
        match alist_lookup t2.h_inodes i with
        | none => (t2, none)
        | some en2 =>
          let en3 := { en2 with is_modified := false, removed := false, mode := t.dmode,
                                age := dir_en.age }
          ({ t2 with h_inodes := alist_insert t2.h_inodes i en3 }, some i)

/-- `dir_tree_create_symlink`, local tree part: like create, but the mode
is `S_IFLNK | 0777` and `is_modified` is set before the upload is handed to
`fileio_simple_upload` (outside this model). -/
def dir_tree_create_symlink_state (t : DirTree) (parent_ino : Nat) (fname : String)
    (now : Int) : DirTree × Option Nat :=
  let mode : Nat := 41471
  match alist_lookup t.h_inodes parent_ino with
  | none => (t, none)
  | some dir_en =>
    if dir_en.type ≠ DirEntryType.DET_dir then (t, none)
    else
      let step1 : Option (DirTree × Nat) :=
        match alist_lookup dir_en.h_children fname with
        | none => dir_tree_add_entry t fname mode DirEntryType.DET_file parent_ino 0 now now
        | some ci =>
          match alist_lookup t.h_inodes ci with
          | none => dir_tree_add_entry t fname mode DirEntryType.DET_file parent_ino 0 now now
          | some en =>
            let en1 := { en with removed := false, access_time := now, age := dir_en.age }
            let t1 := { t with h_inodes := alist_insert t.h_inodes ci en1 }
            some (dir_tree_entry_modified t1 parent_ino, ci)
      match step1 with
      | none => (t, none)
      | some (t1, i) =>
        match alist_lookup t1.h_inodes i with
        | none => (t1, none)
        | some en =>
          let en2 := { en with is_modified := true, mode := mode }
          ({ t1 with h_inodes := alist_insert t1.h_inodes i en2 }, some i)

/-- The headers of a HEAD response that `dir_tree.c` consumes.  String
values are modelled after parsing: `content_length` is the non-negative
parsed `Content-Length`, `is_directory` says whether `Content-Type` starts
with `application/x-directory`, `meta_mode` is a positive parsed
`x-amz-meta-mode`, `meta_date` and `last_modified` are parsed timestamps,
and `etag` is the `ETag` value with surrounding quotes stripped. -/
structure HeadResponse where
  content_length : Option Nat
  is_directory : Bool
  meta_mode : Option Nat
  meta_date : Option Int
  last_modified : Option Int
  etag : Option String
  version_id : Option String
  content_type : Option String
deriving DecidableEq, Repr

/-- `dir_tree_entry_update_xattrs`: refresh the cached `ETag`,
`x-amz-version-id` and `Content-Type` values and stamp `xattr_time`. -/
def dir_tree_entry_update_xattrs (en : DirEntry) (r : HeadResponse) (now : Int) : DirEntry :=
  let e1 := match r.etag with
    | some s => { en with etag := some s }
    | none => en
  let e2 := match r.version_id with
    | some s => { e1 with version_id := some s }
    | none => e1
  let e3 := match r.content_type with
    | some s => { e2 with content_type := some s }
    | none => e2
  { e3 with xattr_time := now }

/-- `dir_tree_on_lookup_cb`: completion of the HEAD attribute refresh.  On
failure only `is_updating` is cleared.  On success the size, xattrs, an
optional in-place promotion to directory (children table allocated if
absent, directory cache dropped, mode reset to the configured directory
default), `x-amz-meta-mode`, `x-amz-meta-date`, `is_updating` and
`updated_time` are applied, in the order of the C code.  The `Bool` is the
success flag handed to `lookup_cb`. -/
def dir_tree_on_lookup_cb (t : DirTree) (ino : Nat) (success : Bool) (r : HeadResponse)
    (now : Int) : DirTree × Bool :=
  match alist_lookup t.h_inodes ino with
  | none => (t, false)
  | some en =>
    if !success then
      ({ t with h_inodes := alist_insert t.h_inodes ino { en with is_updating := false } },
       false)
    else
      let en1 := match r.content_length with
        | some sz => { en with size := sz }
        | none => en
      let en2 := dir_tree_entry_update_xattrs en1 r now
      let en3 :=
        if r.is_directory then
          { en2 with type := DirEntryType.DET_dir, mode := t.dmode,
                     h_dir_tree := some en2.h_children, dir_cache := none }
        else en2
      let en4 := match r.meta_mode with
        | some m => { en3 with mode := m }
        | none => en3
      let en5 := match r.meta_date with
        | some d => { en4 with ctime := d }
        | none => en4
      let en6 := { en5 with is_updating := false, updated_time := now }
      ({ t with h_inodes := alist_insert t.h_inodes ino en6 }, true)

/-- `dir_tree_on_lookup_not_found_cb`: completion of the HEAD probe for a
basename with no child entry.  A failed HEAD inserts a tombstoned file
entry (the negative cache) and reports not-found; a successful HEAD
locates-or-creates the child through `dir_tree_update_entry` with the
reported size and `Last-Modified`, refreshes its xattrs and reports
success. -/
def dir_tree_on_lookup_not_found_cb (t : DirTree) (parent_ino : Nat) (name : String)
    (success : Bool) (r : HeadResponse) (now : Int) : DirTree × Bool :=
  match alist_lookup t.h_inodes parent_ino with
  | none => (t, false)
  | some _ =>
    if !success then
      match dir_tree_add_entry t name t.fmode DirEntryType.DET_file parent_ino 0 now now with
      | none => (t, false)
      | some (t1, i) =>
        match alist_lookup t1.h_inodes i with
        | none => (t1, false)
        | some en =>
          ({ t1 with h_inodes := alist_insert t1.h_inodes i { en with removed := true } },
           false)
    else
      let size := r.content_length.getD 0
      let lm := r.last_modified.getD now
      match dir_tree_update_entry t DirEntryType.DET_file parent_ino name size lm now with
      | none => (t, false)
      | some (t1, i) =>
        match alist_lookup t1.h_inodes i with
        | none => (t1, false)
        | some en =>
          let en1 := dir_tree_entry_update_xattrs en r now
          ({ t1 with h_inodes := alist_insert t1.h_inodes i en1 }, true)

/-- `dir_tree_on_rename_copy_cb`: completion of the copy PUT.  On PUT
failure the rename fails.  Otherwise the destination entry is looked up
under the new parent; when it is absent the rename fails; when present its
tombstone is cleared, its `access_time` refreshed and the new parent's
listing cache invalidated, and the DELETE stage is dispatched.  The `Bool`
is `true` iff the DELETE stage was dispatched. -/
def dir_tree_on_rename_copy_cb (t : DirTree) (newparent_ino : Nat) (newname : String)
    (success : Bool) (now : Int) : DirTree × Bool :=
  if !success then (t, false)
  else
    match alist_lookup t.h_inodes newparent_ino with
    | none => (t, false)
    | some np =>
      if np.type ≠ DirEntryType.DET_dir then (t, false)
      else
        match alist_lookup np.h_children newname with
        | none => (t, false)
        | some ci =>
          match alist_lookup t.h_inodes ci with
          | none => (t, false)
          | some en =>
            let en1 := { en with removed := false, access_time := now }
            let t1 := { t with h_inodes := alist_insert t.h_inodes ci en1 }
            (dir_tree_entry_modified t1 newparent_ino, true)

/-- `dir_tree_on_rename_delete_cb`: completion of the DELETE of the rename
source.  On success the source is tombstoned, its parent's listing cache
invalidated, and the new parent's listing cache invalidated; the rename
completes with success. -/
def dir_tree_on_rename_delete_cb (t : DirTree) (parent_ino : Nat) (name : String)
    (newparent_ino : Nat) (success : Bool) : DirTree × Bool :=
  if !success then (t, false)
  else
    match alist_lookup t.h_inodes parent_ino with
    | none => (t, false)
    | some parent_en =>
      if parent_en.type ≠ DirEntryType.DET_dir then (t, false)
      else
        match alist_lookup parent_en.h_children name with
        | none => (t, false)
        | some ci =>
          match alist_lookup t.h_inodes ci with
          | none => (t, false)
          | some en =>
            match alist_lookup t.h_inodes newparent_ino with
            | none => (t, false)
            | some np =>
              if np.type ≠ DirEntryType.DET_dir then (t, false)
              else
                let en1 := { en with removed := true }
                let t1 := { t with h_inodes := alist_insert t.h_inodes ci en1 }
                let t2 := dir_tree_entry_modified t1 ci
                (dir_tree_entry_modified t2 newparent_ino, true)

/-- How far the asynchronous rename pipeline gets. -/
inductive RenameEnv where
  | noCon : RenameEnv
  | putFail : RenameEnv
  | putOkNoDelCon : RenameEnv
  | putOkDelFail : RenameEnv
  | putOkDelOk : RenameEnv
deriving DecidableEq, Repr

/-- `dir_tree_rename` and its callback chain: refuse directories and files
of `FIVEG` bytes or more before any connection is acquired, then run the
copy PUT and the source DELETE according to `env`. -/
def dir_tree_rename (t : DirTree) (parent_ino : Nat) (name : String) (newparent_ino : Nat)
    (newname : String) (env : RenameEnv) (now : Int) : DirTree × Bool :=
  match alist_lookup t.h_inodes parent_ino with
  | none => (t, false)
  | some parent_en =>
    if parent_en.type ≠ DirEntryType.DET_dir then (t, false)
    else
      match alist_lookup t.h_inodes newparent_ino with
      | none => (t, false)
      | some np =>
        if np.type ≠ DirEntryType.DET_dir then (t, false)
        else
          match alist_lookup parent_en.h_children name with
          | none => (t, false)
          | some ci =>
            match alist_lookup t.h_inodes ci with
            | none => (t, false)
            | some en =>
              if en.type = DirEntryType.DET_dir then (t, false)
              else if en.size ≥ FIVEG then (t, false)
              else
                match env with
                | RenameEnv.noCon => (t, false)
                | RenameEnv.putFail => dir_tree_on_rename_copy_cb t newparent_ino newname false now
                | RenameEnv.putOkNoDelCon =>
                  let r1 := dir_tree_on_rename_copy_cb t newparent_ino newname true now
                  (r1.1, false)
                | RenameEnv.putOkDelFail =>
                  let r1 := dir_tree_on_rename_copy_cb t newparent_ino newname true now
                  if r1.2 then
                    dir_tree_on_rename_delete_cb r1.1 parent_ino name newparent_ino false
                  else (r1.1, false)
                | RenameEnv.putOkDelOk =>
                  let r1 := dir_tree_on_rename_copy_cb t newparent_ino newname true now
                  if r1.2 then
                    dir_tree_on_rename_delete_cb r1.1 parent_ino name newparent_ino true
                  else (r1.1, false)

/-- One atomic operation of the directory tree, each applying the embedded
function for the corresponding kernel operation (with the outcome of any
server interaction supplied by the environment arguments). -/
inductive Step (c : Conf) : DirTree → DirTree → Prop where
  | create : ∀ t p n m now, Step c t (dir_tree_file_create t p n m now).1
  | mkdir : ∀ t p n m now, Step c t (dir_tree_dir_create t p n m now).1
  | lookup : ∀ t p n now, Step c t (dir_tree_lookup_step c t p n now).1
  | readdir : ∀ t ino off dop now env, Step c t (dir_tree_fill_dir_buf c t ino off dop now env).1
  | head_refresh : ∀ t ino s r now, Step c t (dir_tree_on_lookup_cb t ino s r now).1
  | head_probe : ∀ t p n s r now, Step c t (dir_tree_on_lookup_not_found_cb t p n s r now).1
  | unlink : ∀ t p n env, Step c t (dir_tree_file_unlink t p n env).1
  | rmdir : ∀ t p n, Step c t (dir_tree_dir_remove t p n).1
  | rename : ∀ t p n np nn env now, Step c t (dir_tree_rename t p n np nn env now).1
  | symlink : ∀ t p n now, Step c t (dir_tree_create_symlink_state t p n now).1

/-- States reachable from a freshly created tree by the operations. -/
inductive Reachable (c : Conf) : DirTree → Prop where
  | init : ∀ fmode dmode now, Reachable c (dir_tree_create fmode dmode now)
  | step : ∀ t t', Reachable c t → Step c t t' → Reachable c t'

/-- The spec's age invariant: every non-root entry's age is at most its
parent's age. -/
def ageInvB (t : DirTree) : Bool :=
  t.h_inodes.all fun p =>
    p.2.parent_ino = 0 ||
      (match alist_lookup t.h_inodes p.2.parent_ino with
       | none => true
       | some pe => decide (p.2.age ≤ pe.age))

theorem entry_modified_of_dir (t : DirTree) (i : Nat) (e : DirEntry)
    (h : alist_lookup t.h_inodes i = some e) (hd : e.type = DirEntryType.DET_dir) :
    dir_tree_entry_modified t i =
      { t with h_inodes := alist_insert t.h_inodes i { e with dir_cache := none } } := by
  simp [dir_tree_entry_modified, h, hd]

theorem entry_modified_of_file (t : DirTree) (i : Nat) (e p : DirEntry)
    (h : alist_lookup t.h_inodes i = some e) (hf : e.type = DirEntryType.DET_file)
    (hp : alist_lookup t.h_inodes e.parent_ino = some p)
    (hpd : p.type = DirEntryType.DET_dir) :
    dir_tree_entry_modified t i =
      { t with h_inodes := alist_insert t.h_inodes e.parent_ino { p with dir_cache := none } } := by
  simp [dir_tree_entry_modified, h, hf, hp, hpd]

/-- A directory-entry record with every field zeroed, used as the base of
the concrete states the theorems are evaluated on. -/
def baseEntry : DirEntry :=
  { ino := 0, parent_ino := 0, basename := "", fullpath := "",
    type := DirEntryType.DET_file, age := 0, removed := false, is_modified := false,
    size := 0, mode := 0, ctime := 0, dir_cache := none, dir_cache_created := 0,
    dir_cache_updating := false, h_dir_tree := none, is_updating := false,
    updated_time := 0, access_time := 0, etag := none, version_id := none,
    content_type := none, xattr_time := 0 }

/-- A configuration with 60-second cache lifetimes and both HEAD policies
switched off. -/
def conf0 : Conf :=
  { dir_cache_max_time := 60, file_cache_max_time := 60,
    check_empty_files := false, force_head_requests_on_lookup := false }

/-- Root directory record of the small concrete states (inode 1). -/
def rootD (ch : List (String × Nat)) : DirEntry :=
  { baseEntry with ino := 1, basename := "/", type := DirEntryType.DET_dir,
                   mode := 16877, h_dir_tree := some ch }

/-- A plain file entry `f` under the root (inode 2). -/
def fileF : DirEntry :=
  { baseEntry with ino := 2, parent_ino := 1, basename := "f", fullpath := "f",
                   mode := 33188, size := 7, age := 0 }

/-- Concrete tree: root with the single file child `f`. -/
def treeRF : DirTree :=
  { h_inodes := [(1, rootD [("f", 2)]), (2, fileF)], max_ino := 3,
    fmode := 33188, dmode := 16877 }

/-- C1 (amended): when the DELETE of an unlink completes — with success or
with failure alike — and the file entry is still present, the entry is
tombstoned (`removed := true`, `age := 0`), the parent directory's listing
cache is invalidated, and the DELETE's success flag is passed through to
the completion callback (so a failure is surfaced, but the entry does not
remain untombstoned). -/
theorem unlink_completion_tombstones (t : DirTree) (ino : Nat) (en p : DirEntry) (s : Bool)
    (h1 : alist_lookup t.h_inodes ino = some en)
    (h2 : en.type = DirEntryType.DET_file)
    (h3 : en.parent_ino ≠ ino)
    (h4 : alist_lookup t.h_inodes en.parent_ino = some p)
    (h5 : p.type = DirEntryType.DET_dir) :
    (dir_tree_file_remove_on_con_data_cb t ino s).2 = s ∧
    alist_lookup (dir_tree_file_remove_on_con_data_cb t ino s).1.h_inodes ino =
      some { en with removed := true, age := 0 } ∧
    alist_lookup (dir_tree_file_remove_on_con_data_cb t ino s).1.h_inodes en.parent_ino =
      some { p with dir_cache := none } := by
  have l1 : alist_lookup (alist_insert t.h_inodes ino { en with removed := true, age := 0 }) ino
      = some { en with removed := true, age := 0 } := alist_lookup_insert _ _ _
  have l2 : alist_lookup (alist_insert t.h_inodes ino { en with removed := true, age := 0 })
      en.parent_ino = some p := by
    rw [alist_lookup_insert_ne _ _ _ _ (fun h => h3 h.symm)]; exact h4
  have h2b : ({ en with removed := true, age := 0 } : DirEntry).type = DirEntryType.DET_file := h2
  have hem := entry_modified_of_file
    { t with h_inodes := alist_insert t.h_inodes ino { en with removed := true, age := 0 } }
    ino { en with removed := true, age := 0 } p l1 h2b l2 h5
  simp only [dir_tree_file_remove_on_con_data_cb, h1]
  rw [hem]
  refine ⟨trivial, ?_, ?_⟩
  · show alist_lookup (alist_insert (alist_insert t.h_inodes ino _) en.parent_ino _) ino = _
    rw [alist_lookup_insert_ne _ _ _ _ h3, l1]
  · show alist_lookup (alist_insert (alist_insert t.h_inodes ino _) en.parent_ino _)
      en.parent_ino = _
    rw [alist_lookup_insert]

/-- C1 witness: concrete successful unlink of `f` in `treeRF`. -/
theorem unlink_completion_tombstones_witness :
    (dir_tree_file_remove_on_con_data_cb treeRF 2 true).2 = true ∧
    alist_lookup (dir_tree_file_remove_on_con_data_cb treeRF 2 true).1.h_inodes 2 =
      some { fileF with removed := true, age := 0 } ∧
    alist_lookup (dir_tree_file_remove_on_con_data_cb treeRF 2 true).1.h_inodes
        fileF.parent_ino = some { rootD [("f", 2)] with dir_cache := none } :=
  unlink_completion_tombstones treeRF 2 fileF (rootD [("f", 2)]) true (by decide)
    (by decide) (by decide) (by decide) (by decide)

/-- C1 counterexample: in `treeRF` the file `f` is not tombstoned, yet
after the DELETE completes with failure the entry has `removed = true` —
the claim's failure half ("f remains untombstoned") is false on the code. -/
theorem unlink_failure_still_tombstones_cex :
    (alist_lookup treeRF.h_inodes 2).map DirEntry.removed = some false ∧
    (dir_tree_file_remove_on_con_data_cb treeRF 2 false).2 = false ∧
    (alist_lookup (dir_tree_file_remove_on_con_data_cb treeRF 2 false).1.h_inodes 2).map
      DirEntry.removed = some true := by decide

/-- An empty HEAD response (no recognised headers). -/
def headNone : HeadResponse :=
  { content_length := none, is_directory := false, meta_mode := none, meta_date := none,
    last_modified := none, etag := none, version_id := none, content_type := none }

/-- C7 (amended): a failed HEAD attribute refresh mutates nothing of the
subject entry except clearing `is_updating`; a failed directory listing
refresh clears its own single-flight guard `dir_cache_updating` and
additionally clears `is_modified` — size, mode, ctime, removed, age and all
remaining fields are unchanged on both failure paths, as the record-update
equations state. -/
theorem failed_refresh_frame (t : DirTree) (ino : Nat) (en : DirEntry) (r : HeadResponse)
    (dop : Option DirOpData) (now : Int)
    (h : alist_lookup t.h_inodes ino = some en) :
    dir_tree_on_lookup_cb t ino false r now =
      ({ t with h_inodes := alist_insert t.h_inodes ino { en with is_updating := false } },
       false) ∧
    dir_tree_fill_on_dir_buf_cb t ino dop false now =
      ({ t with
          h_inodes := alist_insert t.h_inodes ino
            { en with dir_cache_updating := false, is_modified := false } },
       dop, ReaddirResult.failure) := by
  constructor
  · simp [dir_tree_on_lookup_cb, h]
  · simp [dir_tree_fill_on_dir_buf_cb, h]

/-- The root of `treeRF` with `is_updating` cleared. -/
def rootRFa : DirEntry := { rootD [("f", 2)] with is_updating := false }

/-- The root of `treeRF` with the listing-refresh guard and `is_modified`
cleared. -/
def rootRFb : DirEntry :=
  { rootD [("f", 2)] with dir_cache_updating := false, is_modified := false }

/-- C7 witness: concrete failed HEAD refresh and failed listing refresh of
the root of `treeRF`. -/
theorem failed_refresh_frame_witness :
    dir_tree_on_lookup_cb treeRF 1 false headNone 5 =
      ({ treeRF with h_inodes := alist_insert treeRF.h_inodes 1 rootRFa }, false) ∧
    dir_tree_fill_on_dir_buf_cb treeRF 1 none false 5 =
      ({ treeRF with h_inodes := alist_insert treeRF.h_inodes 1 rootRFb },
       none, ReaddirResult.failure) :=
  failed_refresh_frame treeRF 1 (rootD [("f", 2)]) headNone none 5 (by decide)

/-- A modified directory with a listing refresh in flight. -/
def dirInFlight : DirEntry :=
  { rootD [] with is_modified := true, dir_cache_updating := true }

/-- Concrete tree containing only `dirInFlight`. -/
def treeInFlight : DirTree :=
  { h_inodes := [(1, dirInFlight)], max_ino := 2, fmode := 33188, dmode := 16877 }

/-- C7 counterexample: the directory is `is_modified` before the refresh
completes; the listing refresh completes with failure, and afterwards
`is_modified` has been cleared — contradicting the claim that `is_modified`
is unchanged on the failure path. -/
theorem failed_refresh_clears_modified_cex :
    (alist_lookup treeInFlight.h_inodes 1).map DirEntry.is_modified = some true ∧
    (dir_tree_fill_on_dir_buf_cb treeInFlight 1 none false 5).2.2 = ReaddirResult.failure ∧
    (alist_lookup (dir_tree_fill_on_dir_buf_cb treeInFlight 1 none false 5).1.h_inodes 1).map
      DirEntry.is_modified = some false := by decide

/-- The record built for a fresh entry by `dir_tree_add_entry` under
parent `p` (whose entry is `de`). -/
def newEntryOf (t : DirTree) (bn : String) (m : Nat) (ty : DirEntryType) (p : Nat)
    (sz : Nat) (ct now : Int) (de : DirEntry) : DirEntry :=
  { ino := t.max_ino, parent_ino := p, basename := bn,
    fullpath := if p = FUSE_ROOT_ID then bn else de.fullpath ++ "/" ++ bn,
    type := ty, age := de.age, removed := false, is_modified := false, size := sz,
    mode := m, ctime := ct, dir_cache := none, dir_cache_created := 0,
    dir_cache_updating := false,
    h_dir_tree := if ty = DirEntryType.DET_dir then some [] else none,
    is_updating := false, updated_time := 0, access_time := now,
    etag := none, version_id := none, content_type := none, xattr_time := 0 }

/-- Characterisation of a successful `dir_tree_add_entry` under a present
directory parent: the new entry gets the next inode and the parent's age,
the parent's listing cache is invalidated and its children table gains the
new basename, and no other inode-table binding changes. -/
theorem dir_tree_add_entry_spec (t : DirTree) (bn : String) (m : Nat) (ty : DirEntryType)
    (p : Nat) (sz : Nat) (ct now : Int) (de : DirEntry) (t' : DirTree) (i : Nat)
    (hp : alist_lookup t.h_inodes p = some de)
    (hdir : de.type = DirEntryType.DET_dir)
    (hne : p ≠ 0)
    (hlt : p < t.max_ino)
    (hres : dir_tree_add_entry t bn m ty p sz ct now = some (t', i)) :
    i = t.max_ino ∧
    t'.max_ino = t.max_ino + 1 ∧
    alist_lookup t'.h_inodes i = some (newEntryOf t bn m ty p sz ct now de) ∧
    alist_lookup t'.h_inodes p =
      some { de with dir_cache := none,
                     h_dir_tree := some (alist_insert de.h_children bn t.max_ino) } ∧
    (∀ j, j ≠ i → j ≠ p → alist_lookup t'.h_inodes j = alist_lookup t.h_inodes j) := by
  have hip : t.max_ino ≠ p := by omega
  have hpi : p ≠ t.max_ino := by omega
  by_cases hhd : de.h_dir_tree = none
  · simp [dir_tree_add_entry, hne, hp, hhd] at hres
  · by_cases hcl : (match (alist_lookup de.h_children bn).bind (alist_lookup t.h_inodes) with
        | some ex => decide (ex.type ≠ ty)
        | none => false) = true
    · simp only [dir_tree_add_entry, if_neg hne, hp, if_neg hhd] at hres
      rw [if_pos hcl] at hres
      exact absurd hres (by simp)
    · simp only [dir_tree_add_entry, if_neg hne, hp, if_neg hhd] at hres
      rw [if_neg hcl] at hres
      simp [dir_tree_entry_modified, alist_lookup_insert,
        alist_lookup_insert_ne _ _ _ _ hip, hdir, hp] at hres
      obtain ⟨ht, hi⟩ := hres
      subst hi
      refine ⟨rfl, ?_, ?_, ?_, ?_⟩
      · rw [← ht]
      · rw [← ht]
        show alist_lookup (alist_insert _ p _) t.max_ino = _
        rw [alist_lookup_insert_ne _ _ _ _ hpi, alist_lookup_insert_ne _ _ _ _ hpi,
          alist_lookup_insert]
        rfl
      · rw [← ht]
        show alist_lookup (alist_insert _ p _) p = _
        rw [alist_lookup_insert]
        simp [DirEntry.h_children, ← hdir]
      · intro j hj1 hj2
        rw [← ht]
        show alist_lookup (alist_insert _ p _) j = _
        rw [alist_lookup_insert_ne _ _ _ _ (Ne.symm hj2),
          alist_lookup_insert_ne _ _ _ _ (Ne.symm hj2),
          alist_lookup_insert_ne _ _ _ _ (Ne.symm hj1),
          alist_lookup_insert_ne _ _ _ _ (Ne.symm hj2)]

/-- C8 (amended): whenever `dir_tree_add_entry` or `dir_tree_update_entry`
places or refreshes a child under a directory parent, the child's age is
assigned the parent's current age, so immediately after the operation the
touched child satisfies `age ≤ parent.age` (here: `age = parent.age`).
The global invariant of the claim does not hold — see the counterexample,
where a listing refresh raises the refreshed directory's own age above its
parent's. -/
theorem child_age_assigned_parent_age (t : DirTree) (bn : String) (m : Nat)
    (ty : DirEntryType) (p : Nat) (sz : Nat) (ct lm now : Int) (de : DirEntry)
    (t' : DirTree) (i : Nat)
    (hp : alist_lookup t.h_inodes p = some de)
    (hdir : de.type = DirEntryType.DET_dir)
    (hne : p ≠ 0)
    (hlt : p < t.max_ino) :
    (dir_tree_add_entry t bn m ty p sz ct now = some (t', i) →
      ∃ e pe, alist_lookup t'.h_inodes i = some e ∧ alist_lookup t'.h_inodes p = some pe ∧
        e.age = pe.age) ∧
    (dir_tree_update_entry t ty p bn sz lm now = some (t', i) →
      ∃ e pe, alist_lookup t'.h_inodes i = some e ∧ alist_lookup t'.h_inodes p = some pe ∧
        e.age = pe.age) := by
  constructor
  · intro hres
    obtain ⟨hi, _, he, hpe, _⟩ :=
      dir_tree_add_entry_spec t bn m ty p sz ct now de t' i hp hdir hne hlt hres
    exact ⟨_, _, he, hpe, rfl⟩
  · intro hres
    simp only [dir_tree_update_entry, hp, if_neg (by simp [hdir] :
      ¬ de.type ≠ DirEntryType.DET_dir)] at hres
    rcases hcb : alist_lookup de.h_children bn with _ | ci
    · simp only [hcb] at hres
      obtain ⟨hi, _, he, hpe, _⟩ :=
        dir_tree_add_entry_spec t bn _ ty p sz lm now de t' i hp hdir hne hlt hres
      exact ⟨_, _, he, hpe, rfl⟩
    · simp only [hcb] at hres
      rcases hce : alist_lookup t.h_inodes ci with _ | en
      · simp only [hce] at hres
        obtain ⟨hi, _, he, hpe, _⟩ :=
          dir_tree_add_entry_spec t bn _ ty p sz lm now de t' i hp hdir hne hlt hres
        exact ⟨_, _, he, hpe, rfl⟩
      · simp only [hce, Option.some.injEq, Prod.mk.injEq] at hres
        obtain ⟨ht, hi⟩ := hres
        subst hi
        by_cases hcip : ci = p
        · subst hcip
          refine ⟨{ en with age := de.age, size := sz, removed := false },
                  { en with age := de.age, size := sz, removed := false }, ?_, ?_, rfl⟩ <;>
            · rw [← ht]
              exact alist_lookup_insert _ _ _
        · refine ⟨{ en with age := de.age, size := sz, removed := false }, de, ?_, ?_, rfl⟩
          · rw [← ht]
            exact alist_lookup_insert _ _ _
          · rw [← ht]
            show alist_lookup (alist_insert _ ci _) p = _
            rw [alist_lookup_insert_ne _ _ _ _ hcip]
            exact hp

/-- The inode table after adding a fresh file `g` under the root of
`treeRF`. -/
def treeRFg : DirTree :=
  ((dir_tree_add_entry treeRF "g" 33188 DirEntryType.DET_file 1 0 5 5).getD (treeRF, 0)).1

/-- C8 witness: adding `g` under the root of `treeRF` gives the new entry
the root's age. -/
theorem child_age_assigned_parent_age_witness :
    ∃ e pe, alist_lookup treeRFg.h_inodes 3 = some e ∧
      alist_lookup treeRFg.h_inodes 1 = some pe ∧ e.age = pe.age :=
  (child_age_assigned_parent_age treeRF "g" 33188 DirEntryType.DET_file 1 0 5 5 5
    (rootD [("f", 2)]) treeRFg 3 (by decide) (by decide) (by decide) (by decide)).1
    (by decide)

/-- Freshly created tree (root only). -/
def c8tree0 : DirTree := dir_tree_create 33188 16877 0

/-- After `mkdir(root, "d")`: the directory `d` has inode 2 and age 0. -/
def c8tree1 : DirTree := (dir_tree_dir_create c8tree0 1 "d" 0 1).1

/-- After a readdir of `d` whose listing refresh returns an empty listing:
the refresh incremented `d`'s age to 1 while the root's age stays 0. -/
def c8tree2 : DirTree :=
  (dir_tree_fill_dir_buf conf0 c8tree1 2 0 none 1 (ListingOutcome.listed [])).1

/-- C8 counterexample: `c8tree2` is reachable (create tree, mkdir `d`,
readdir `d` with a successful empty listing refresh), yet the age
invariant fails there: `d` (inode 2) has `age = 1` while its parent, the
root, has `age = 0`. -/
theorem refresh_breaks_age_invariant_cex :
    Reachable conf0 c8tree2 ∧ ageInvB c8tree2 = false := by
  refine ⟨?_, by decide⟩
  have h0 : Reachable conf0 c8tree0 := Reachable.init 33188 16877 0
  have h1 : Reachable conf0 c8tree1 :=
    Reachable.step _ _ h0 (Step.mkdir c8tree0 1 "d" 0 1)
  exact Reachable.step _ _ h1 (Step.readdir c8tree1 2 0 none 1 (ListingOutcome.listed []))

/-- The children the buffer-construction loop of
`dir_tree_fill_on_dir_buf_cb` emits: those whose age has not fallen behind
the directory's (`age >= parent.age`) and which are not tombstoned, in
iteration order. -/
def dir_tree_visible_children (t : DirTree) (e : DirEntry) : List DirItem :=
  e.h_children.filterMap fun p =>
    match alist_lookup t.h_inodes p.2 with
    | none => none
    | some ce =>
      if decide (ce.age ≥ e.age) && !ce.removed then
        some { name := ce.basename, ino := ce.ino, size := ce.size }
      else none

/-- The children the claim says are emitted: those with `age == parent.age`
(and not tombstoned).  This definition follows the spec's words, for
comparison with the code's `dir_tree_visible_children`. -/
def dir_tree_visible_children_claim (t : DirTree) (e : DirEntry) : List DirItem :=
  e.h_children.filterMap fun p =>
    match alist_lookup t.h_inodes p.2 with
    | none => none
    | some ce =>
      if decide (ce.age = e.age) && !ce.removed then
        some { name := ce.basename, ino := ce.ino, size := ce.size }
      else none

/-- C6 (amended): the blob built at the end of a listing refresh starts
with the two implicit entries "." and ".." (both carrying the directory's
own inode) and then contains exactly the children with `age >= parent.age`
and `removed == false`, in iteration order (the code's visibility test is
`age >= parent.age`, not `age == parent.age`). -/
theorem dir_blob_shape (t : DirTree) (ino : Nat) (e : DirEntry) :
    build_dir_blob t ino e =
      { name := ".", ino := ino, size := 0 } :: { name := "..", ino := ino, size := 0 } ::
        dir_tree_visible_children t e := by
  have key : ∀ (l : List (String × Nat)) (init : List DirItem),
      l.foldl
        (fun acc p =>
          match alist_lookup t.h_inodes p.2 with
          | none => acc
          | some ce =>
            if e.age ≤ ce.age ∧ ce.removed = false then
              acc ++ [{ name := ce.basename, ino := ce.ino, size := ce.size }]
            else acc) init
      = init ++ l.filterMap fun p =>
          match alist_lookup t.h_inodes p.2 with
          | none => none
          | some ce =>
            if e.age ≤ ce.age ∧ ce.removed = false then
              some { name := ce.basename, ino := ce.ino, size := ce.size }
            else none := by
    intro l
    induction l with
    | nil => intro init; simp
    | cons a l ih =>
      intro init
      rcases ha : alist_lookup t.h_inodes a.2 with _ | ce
      · simp [List.foldl_cons, ha, List.filterMap_cons, ih]
      · by_cases hc : e.age ≤ ce.age ∧ ce.removed = false
        · simp [List.foldl_cons, ha, hc, List.filterMap_cons, ih]
        · simp [List.foldl_cons, ha, hc, List.filterMap_cons, ih]
  simpa [build_dir_blob, dir_tree_visible_children] using
    key e.h_children
      [{ name := ".", ino := ino, size := 0 }, { name := "..", ino := ino, size := 0 }]

/-- A child of the aged directory whose age (2) exceeds its parent's (1). -/
def entryZ : DirEntry :=
  { baseEntry with ino := 2, parent_ino := 1, basename := "z", fullpath := "z", age := 2 }

/-- A directory of age 1 containing `entryZ`. -/
def dirAged : DirEntry := { rootD [("z", 2)] with age := 1 }

/-- Tree with `dirAged` (inode 1) and `entryZ` (inode 2). -/
def treeAged : DirTree :=
  { h_inodes := [(1, dirAged), (2, entryZ)], max_ino := 3, fmode := 33188, dmode := 16877 }

/-- C6 counterexample: the constructed blob contains the un-tombstoned
child `z` of age 2, even though the parent's age is 1 — so the blob is not
"exactly the children with age == parent.age" as the claim states (such a
state is reachable: rmdir resets a tombstoned directory's age to 0, mkdir
then re-creates it with its parent's age, and a rename-copy completion can
clear a surviving child's tombstone, after which the next refresh builds a
blob like this one). -/
theorem dir_blob_age_eq_cex :
    build_dir_blob treeAged 1 dirAged =
      [{ name := ".", ino := 1, size := 0 }, { name := "..", ino := 1, size := 0 },
       { name := "z", ino := 2, size := 0 }] ∧
    dir_tree_visible_children_claim treeAged dirAged = [] ∧
    build_dir_blob treeAged 1 dirAged ≠
      { name := ".", ino := 1, size := 0 } :: { name := "..", ino := 1, size := 0 } ::
        dir_tree_visible_children_claim treeAged dirAged := by decide

/-- C3 (amended): on a successful copy PUT the destination entry is only
*located* under the new parent: when a child of the destination basename is
present, its tombstone is cleared, its `access_time` refreshed, the new
parent's listing cache is invalidated and the DELETE stage is dispatched;
when no such child exists the rename completes with failure and the tree is
left unchanged — the destination entry is not created. -/
theorem rename_copy_locates_destination (t : DirTree) (np_ino : Nat) (newname : String)
    (now : Int) (np : DirEntry)
    (hnp : alist_lookup t.h_inodes np_ino = some np)
    (hdir : np.type = DirEntryType.DET_dir) :
    (alist_lookup np.h_children newname = none →
      dir_tree_on_rename_copy_cb t np_ino newname true now = (t, false)) ∧
    (∀ ci en, alist_lookup np.h_children newname = some ci →
      alist_lookup t.h_inodes ci = some en → ci ≠ np_ino →
      (dir_tree_on_rename_copy_cb t np_ino newname true now).2 = true ∧
      alist_lookup (dir_tree_on_rename_copy_cb t np_ino newname true now).1.h_inodes ci =
        some { en with removed := false, access_time := now } ∧
      alist_lookup (dir_tree_on_rename_copy_cb t np_ino newname true now).1.h_inodes np_ino =
        some { np with dir_cache := none }) := by
  constructor
  · intro hnone
    simp [dir_tree_on_rename_copy_cb, hnp, hdir, hnone]
  · intro ci en hci hen hne
    set en1 : DirEntry := { en with removed := false, access_time := now } with hen1
    have l1 : alist_lookup (alist_insert t.h_inodes ci en1) np_ino = some np := by
      rw [alist_lookup_insert_ne _ _ _ _ hne]; exact hnp
    have hem := entry_modified_of_dir
      { t with h_inodes := alist_insert t.h_inodes ci en1 } np_ino np l1 hdir
    simp only [dir_tree_on_rename_copy_cb, hnp, hci, hen, Bool.not_true, if_neg (by simp [hdir] :
      ¬ np.type ≠ DirEntryType.DET_dir)]
    rw [if_neg (by simp)]
    rw [hem]
    refine ⟨rfl, ?_, ?_⟩
    · show alist_lookup (alist_insert (alist_insert t.h_inodes ci _) np_ino _) ci = _
      rw [alist_lookup_insert_ne _ _ _ _ (Ne.symm hne), alist_lookup_insert]
    · show alist_lookup (alist_insert (alist_insert t.h_inodes ci _) np_ino _) np_ino = _
      rw [alist_lookup_insert]

/-- Directory `a` (inode 2) with the single child `x`. -/
def dirA : DirEntry :=
  { baseEntry with ino := 2, parent_ino := 1, basename := "a", fullpath := "a",
                   type := DirEntryType.DET_dir, mode := 16877, h_dir_tree := some [("x", 4)] }

/-- Directory `b` (inode 3) holding a tombstoned `y` (inode 5). -/
def dirB : DirEntry :=
  { baseEntry with ino := 3, parent_ino := 1, basename := "b", fullpath := "b",
                   type := DirEntryType.DET_dir, mode := 16877, h_dir_tree := some [("y", 5)] }

/-- Directory `b` (inode 3) with no children: the scenario-S5 setup with no
pre-existing destination entry. -/
def dirBEmpty : DirEntry :=
  { baseEntry with ino := 3, parent_ino := 1, basename := "b", fullpath := "b",
                   type := DirEntryType.DET_dir, mode := 16877, h_dir_tree := some [] }

/-- Source file `/a/x` (inode 4, size 10). -/
def entryX : DirEntry :=
  { baseEntry with ino := 4, parent_ino := 2, basename := "x", fullpath := "a/x",
                   mode := 33188, size := 10 }

/-- Tombstoned destination entry `/b/y` (inode 5), as a lookup of a missing
`y` would have left it. -/
def entryY : DirEntry :=
  { baseEntry with ino := 5, parent_ino := 3, basename := "y", fullpath := "b/y",
                   mode := 33188, removed := true }

/-- Rename scenario tree with a tombstoned `/b/y` present. -/
def treeS5 : DirTree :=
  { h_inodes := [(1, rootD [("a", 2), ("b", 3)]), (2, dirA), (3, dirB), (4, entryX),
                 (5, entryY)],
    max_ino := 6, fmode := 33188, dmode := 16877 }

/-- Rename scenario tree with no pre-existing entry `y` under `b`. -/
def treeS5n : DirTree :=
  { h_inodes := [(1, rootD [("a", 2), ("b", 3)]), (2, dirA), (3, dirBEmpty), (4, entryX)],
    max_ino := 6, fmode := 33188, dmode := 16877 }

/-- C3 witness: in `treeS5` the copy completion un-tombstones `/b/y` and
invalidates `b`'s listing cache, and the DELETE stage is dispatched. -/
theorem rename_copy_locates_destination_witness :
    (dir_tree_on_rename_copy_cb treeS5 3 "y" true 7).2 = true ∧
    alist_lookup (dir_tree_on_rename_copy_cb treeS5 3 "y" true 7).1.h_inodes 5 =
      some { entryY with removed := false, access_time := 7 } ∧
    alist_lookup (dir_tree_on_rename_copy_cb treeS5 3 "y" true 7).1.h_inodes 3 =
      some { dirB with dir_cache := none } :=
  (rename_copy_locates_destination treeS5 3 "y" 7 dirB (by decide) (by decide)).2
    5 entryY (by decide) (by decide) (by decide)

/-- C3 counterexample: in the scenario-S5 state with no pre-existing `y`
under `b`, the successful copy PUT completion reports failure and creates
nothing — `b.children` still has no `y` — contradicting the claim that the
destination entry is created and the rename completes successfully. -/
theorem rename_copy_missing_dest_cex :
    dir_tree_on_rename_copy_cb treeS5n 3 "y" true 7 = (treeS5n, false) ∧
    (alist_lookup treeS5n.h_inodes 3).map (fun e => alist_lookup e.h_children "y") =
      some none := by decide

/-- C4 (amended): under a fresh parent cache, a lookup of a tombstoned
child whose `access_time` is within `file_cache_max_time` of now reports
not-found without dispatching any request and without mutating the tree;
an older tombstone instead falls through to the ordinary resolution path,
which — when the entry is not `is_modified` and both HEAD policies are off —
returns the tombstoned entry's cached attributes as a successful lookup
(it does not dispatch a server refresh). -/
theorem tombstone_lookup_behaviour (c : Conf) (t : DirTree) (p : Nat) (n : String)
    (now : Int) (de en : DirEntry) (ci : Nat)
    (hp : alist_lookup t.h_inodes p = some de)
    (hdir : de.type = DirEntryType.DET_dir)
    (hfresh : dir_tree_is_cache_expired c now de = false)
    (hci : alist_lookup de.h_children n = some ci)
    (hen : alist_lookup t.h_inodes ci = some en)
    (hrm : en.removed = true) :
    (now - en.access_time < (c.file_cache_max_time : Int) →
      dir_tree_lookup_step c t p n now = (t, LookupAction.notFoundRemoved)) ∧
    ((c.file_cache_max_time : Int) ≤ now - en.access_time →
      en.is_modified = false →
      c.check_empty_files = false →
      c.force_head_requests_on_lookup = false →
      (dir_tree_lookup_step c t p n now).2 =
        LookupAction.found en.ino en.mode en.size en.ctime) := by
  constructor
  · intro hrecent
    simp [dir_tree_lookup_step, hp, hdir, hfresh, hci, hen, hrm, hrecent]
  · intro hold hmod hce hfh
    have hA : ¬ (now - (c.file_cache_max_time : Int) < en.access_time) := by omega
    have hB : ¬ (now - en.access_time < (c.file_cache_max_time : Int)) := by omega
    simp [dir_tree_lookup_step, hp, hdir, hfresh, hci, hen, hrm, hA, hB, hmod, hce, hfh]

/-- A parent directory with a fresh listing cache and a tombstoned child
`m`. -/
def dirTombParent : DirEntry :=
  { rootD [("m", 2)] with
      dir_cache := some [{ name := ".", ino := 1, size := 0 },
                         { name := "..", ino := 1, size := 0 }],
      dir_cache_created := 50 }

/-- The tombstoned child `m` (inode 2), last accessed at time 0. -/
def entryM : DirEntry :=
  { baseEntry with ino := 2, parent_ino := 1, basename := "m", fullpath := "m",
                   mode := 33188, removed := true, access_time := 0 }

/-- Tree with `dirTombParent` and its tombstoned child. -/
def treeTomb : DirTree :=
  { h_inodes := [(1, dirTombParent), (2, entryM)], max_ino := 3,
    fmode := 33188, dmode := 16877 }

/-- C4 witness: at time 30 (within `file_cache_max_time = 60` of the
tombstone's `access_time` 0, and within `dir_cache_max_time` of the cache
timestamp 50 — a clock regression counts as fresh), the lookup reports
not-found with the tree untouched. -/
theorem tombstone_lookup_behaviour_witness :
    dir_tree_lookup_step conf0 treeTomb 1 "m" 30 = (treeTomb, LookupAction.notFoundRemoved) :=
  (tombstone_lookup_behaviour conf0 treeTomb 1 "m" 30 dirTombParent entryM 2 (by decide)
    (by decide) (by decide) (by decide) (by decide) (by decide)).1 (by decide)

/-- C4 counterexample: at time 100 the tombstone of `m` is older than
`file_cache_max_time = 60`, and with both HEAD policies off the lookup
returns the stale tombstoned entry's attributes as a successful lookup —
it neither reports not-found nor falls through to a server refresh, so the
claim's "falls through to a server refresh" half is false on the code. -/
theorem tombstone_lookup_stale_report_cex :
    (dir_tree_lookup_step conf0 treeTomb 1 "m" 100).2 = LookupAction.found 2 33188 0 0 ∧
    (dir_tree_lookup_step conf0 treeTomb 1 "m" 100).2 ≠ LookupAction.dispatchRefresh ∧
    (dir_tree_lookup_step conf0 treeTomb 1 "m" 100).2 ≠
      LookupAction.dispatchHeadPolicy 2 := by decide

/-- C10: mkdir with an existing child of the basename (of either type)
converts the entry in place, keeping its inode: the type becomes directory,
a children table is allocated when absent (and kept when present), the
tombstone is cleared, the directory cache buffer is discarded; and in every
mkdir case the resulting entry's mode is the configured directory default
`dtree->dmode`, ignoring the caller-supplied mode.  The operation reports
success (`some inode`) and, being a plain local function, issues no server
request. -/
theorem mkdir_converts_existing_entry (t : DirTree) (p : Nat) (n : String) (m : Nat)
    (now : Int) (de : DirEntry)
    (hp : alist_lookup t.h_inodes p = some de)
    (hdir : de.type = DirEntryType.DET_dir)
    (hne : p ≠ 0)
    (hlt : p < t.max_ino) :
    (∀ ci en, alist_lookup de.h_children n = some ci →
      alist_lookup t.h_inodes ci = some en →
      (dir_tree_dir_create t p n m now).2 = some ci ∧
      ∃ e, alist_lookup (dir_tree_dir_create t p n m now).1.h_inodes ci = some e ∧
        e.ino = en.ino ∧ e.type = DirEntryType.DET_dir ∧
        e.h_dir_tree = some en.h_children ∧ e.removed = false ∧
        e.dir_cache = none ∧ e.mode = t.dmode ∧ e.age = de.age ∧
        e.is_modified = false ∧ e.access_time = now) ∧
    (∀ i, (dir_tree_dir_create t p n m now).2 = some i →
      ∃ e, alist_lookup (dir_tree_dir_create t p n m now).1.h_inodes i = some e ∧
        e.mode = t.dmode) := by
  have hconv : ∀ ci en, alist_lookup de.h_children n = some ci →
      alist_lookup t.h_inodes ci = some en →
      (dir_tree_dir_create t p n m now).2 = some ci ∧
      ∃ e, alist_lookup (dir_tree_dir_create t p n m now).1.h_inodes ci = some e ∧
        e.ino = en.ino ∧ e.type = DirEntryType.DET_dir ∧
        e.h_dir_tree = some en.h_children ∧ e.removed = false ∧
        e.dir_cache = none ∧ e.mode = t.dmode ∧ e.age = de.age ∧
        e.is_modified = false ∧ e.access_time = now := by
    intro ci en hci hen
    by_cases hcip : ci = p
    · subst hcip
      have hend : de = en := Option.some.inj (hp.symm.trans hen)
      subst hend
      simp only [dir_tree_dir_create, hp, if_neg (by simp [hdir] :
        ¬ de.type ≠ DirEntryType.DET_dir), hci, hen, alist_lookup_insert]
      exact ⟨trivial, _, rfl, rfl, rfl, rfl, rfl, rfl, rfl, rfl, rfl, rfl⟩
    · have hlp : alist_lookup (alist_insert t.h_inodes ci
          { en with type := DirEntryType.DET_dir, h_dir_tree := some en.h_children,
                    removed := false, access_time := now, dir_cache := none }) p = some de := by
        rw [alist_lookup_insert_ne _ _ _ _ hcip]; exact hp
      simp only [dir_tree_dir_create, hp, if_neg (by simp [hdir] :
        ¬ de.type ≠ DirEntryType.DET_dir), hci, hen, hlp, alist_lookup_insert,
        alist_lookup_insert_ne _ _ _ _ (Ne.symm hcip)]
      exact ⟨trivial, _, rfl, rfl, rfl, rfl, rfl, rfl, rfl, rfl, rfl, rfl⟩
  refine ⟨hconv, ?_⟩
  intro i hi
  rcases hcb : alist_lookup de.h_children n with _ | ci
  · -- fresh-entry branch through dir_tree_add_entry
    rcases hadd : dir_tree_add_entry t n m DirEntryType.DET_dir p 10 now now with _ | ta
    · simp [dir_tree_dir_create, hp, hdir, hcb, hadd] at hi
    · obtain ⟨hia, _, hlook, hlp, _⟩ := dir_tree_add_entry_spec t n m DirEntryType.DET_dir
        p 10 now now de ta.1 ta.2 hp hdir hne hlt (by rw [hadd])
      have hpa : p ≠ ta.2 := by omega
      have hl2 : alist_lookup (alist_insert ta.1.h_inodes p
          { de with dir_cache := none,
                    h_dir_tree := some (alist_insert de.h_children n t.max_ino),
                    is_modified := true }) ta.2 = some (newEntryOf t n m
            DirEntryType.DET_dir p 10 now now de) := by
        rw [alist_lookup_insert_ne _ _ _ _ hpa]; exact hlook
      simp only [dir_tree_dir_create, hp, if_neg (by simp [hdir] :
        ¬ de.type ≠ DirEntryType.DET_dir), hcb, hadd, hlp, hl2, alist_lookup_insert] at hi ⊢
      obtain hieq := Option.some.inj hi
      subst hieq
      exact ⟨_, alist_lookup_insert _ _ _, rfl⟩
  · rcases hce : alist_lookup t.h_inodes ci with _ | en
    · -- dangling child inode: also the fresh-entry branch
      rcases hadd : dir_tree_add_entry t n m DirEntryType.DET_dir p 10 now now with _ | ta
      · simp [dir_tree_dir_create, hp, hdir, hcb, hce, hadd] at hi
      · obtain ⟨hia, _, hlook, hlp, _⟩ := dir_tree_add_entry_spec t n m DirEntryType.DET_dir
          p 10 now now de ta.1 ta.2 hp hdir hne hlt (by rw [hadd])
        have hpa : p ≠ ta.2 := by omega
        have hl2 : alist_lookup (alist_insert ta.1.h_inodes p
            { de with dir_cache := none,
                      h_dir_tree := some (alist_insert de.h_children n t.max_ino),
                      is_modified := true }) ta.2 = some (newEntryOf t n m
              DirEntryType.DET_dir p 10 now now de) := by
          rw [alist_lookup_insert_ne _ _ _ _ hpa]; exact hlook
        simp only [dir_tree_dir_create, hp, if_neg (by simp [hdir] :
          ¬ de.type ≠ DirEntryType.DET_dir), hcb, hce, hadd, hlp, hl2,
          alist_lookup_insert] at hi ⊢
        obtain hieq := Option.some.inj hi
        subst hieq
        exact ⟨_, alist_lookup_insert _ _ _, rfl⟩
    · obtain ⟨hires, e, he, _, _, _, _, _, hmode, _, _, _⟩ := hconv ci en hcb hce
      have : i = ci := Option.some.inj (hires.symm.trans hi).symm
      subst this
      exact ⟨e, he, hmode⟩

/-- C10 witness: mkdir over the existing file `f` of `treeRF` converts it
in place to a directory with inode 2, a fresh children table, the default
directory mode, and no cache buffer. -/
theorem mkdir_converts_existing_entry_witness :
    (dir_tree_dir_create treeRF 1 "f" 0 9).2 = some 2 ∧
    ∃ e, alist_lookup (dir_tree_dir_create treeRF 1 "f" 0 9).1.h_inodes 2 = some e ∧
      e.ino = fileF.ino ∧ e.type = DirEntryType.DET_dir ∧
      e.h_dir_tree = some fileF.h_children ∧ e.removed = false ∧
      e.dir_cache = none ∧ e.mode = treeRF.dmode ∧ e.age = (rootD [("f", 2)]).age ∧
      e.is_modified = false ∧ e.access_time = 9 :=
  (mkdir_converts_existing_entry treeRF 1 "f" 0 9 (rootD [("f", 2)]) (by decide) (by decide)
    (by decide) (by decide)).1 2 fileF (by decide) (by decide)

theorem fill_cb_false_fails (t : DirTree) (ino : Nat) (dop : Option DirOpData) (now : Int) :
    (dir_tree_fill_on_dir_buf_cb t ino dop false now).2.2 = ReaddirResult.failure := by
  rcases h : alist_lookup t.h_inodes ino with _ | en0 <;>
    simp [dir_tree_fill_on_dir_buf_cb, h]

/-- A listing-refresh completion invoked with a request handle either fails
(the inode vanished or the listing failed) or succeeds with the very buffer
it stored into the handle. -/
theorem fill_cb_dop_shape (t : DirTree) (ino : Nat) (d : DirOpData) (s : Bool) (now : Int) :
    (∃ t2 blob, dir_tree_fill_on_dir_buf_cb t ino (some d) s now =
      (t2, some { buf := some blob }, ReaddirResult.ok blob)) ∨
    (dir_tree_fill_on_dir_buf_cb t ino (some d) s now).2.2 = ReaddirResult.failure := by
  rcases h : alist_lookup t.h_inodes ino with _ | en0
  · right; simp [dir_tree_fill_on_dir_buf_cb, h]
  · cases s
    · right; simp [dir_tree_fill_on_dir_buf_cb, h]
    · rcases hr : dir_tree_fill_on_dir_buf_cb t ino (some d) true now with ⟨t2, dop2, r⟩
      simp [dir_tree_fill_on_dir_buf_cb, h] at hr
      obtain ⟨h1, h2, h3⟩ := hr
      subst h2
      subst h3
      exact Or.inl ⟨t2, _, rfl⟩

/-- A readdir through a request handle either fails or succeeds returning
exactly the buffer left in the handle. -/
theorem fill_dop_shape (c : Conf) (t : DirTree) (ino : Nat) (d : DirOpData) (off : Int)
    (now : Int) (env : ListingOutcome) :
    (∃ t2 blob, dir_tree_fill_dir_buf c t ino off (some d) now env =
      (t2, some { buf := some blob }, ReaddirResult.ok blob)) ∨
    (dir_tree_fill_dir_buf c t ino off (some d) now env).2.2 = ReaddirResult.failure := by
  obtain ⟨dbuf⟩ := d
  rcases hen : alist_lookup t.h_inodes ino with _ | en
  · right; simp [dir_tree_fill_dir_buf, hen]
  · by_cases hdir : en.type = DirEntryType.DET_dir
    · rcases hd : dbuf with _ | b0
      · by_cases hexp : dir_tree_is_cache_expired c now en = true
        · by_cases hoff : 0 < off
          · right
            simp [dir_tree_fill_dir_buf, hen, hdir, hexp, hoff]
          · have hoff2 : ¬ off > 0 := by simpa using hoff
            simp only [dir_tree_fill_dir_buf, hen, hdir]
            rw [if_neg (by simp [hdir])]
            simp only [hexp]
            rw [if_neg hoff2]
            by_cases hdisp : (!({ en with dir_cache := none } : DirEntry).dir_cache_updating &&
                (decide (({ en with dir_cache := none } : DirEntry).dir_cache_created = 0) ||
                 decide (now - ({ en with dir_cache := none } :
                   DirEntry).dir_cache_created > (c.dir_cache_max_time : Int)))) = true
            · rw [if_pos hdisp]
              rcases env with _ | _ | items
              · right; simp
              · right
                simp only [get_directory_listing]
                exact fill_cb_false_fails _ ino (some ⟨none⟩) now
              · simp only [get_directory_listing]
                exact fill_cb_dop_shape _ ino ⟨none⟩ true now
            · rw [if_neg hdisp]
              exact fill_cb_dop_shape _ ino ⟨none⟩ true now
        · have hexp2 : dir_tree_is_cache_expired c now en = false := by
            rcases hx : dir_tree_is_cache_expired c now en with _ | _
            · rfl
            · exact absurd hx hexp
          left
          exact ⟨t, en.dir_cache.getD [], by simp [dir_tree_fill_dir_buf, hen, hdir, hexp2]⟩
      · left
        exact ⟨t, b0, by simp [dir_tree_fill_dir_buf, hen, hdir]⟩
    · right; simp [dir_tree_fill_dir_buf, hen, hdir]

/-- C2 (amended): on an open-directory handle, a readdir with `off > 0` on
an unpopulated handle buffer fails only when the directory cache is also
expired; when the cache is fresh the handle buffer is populated from it and
the read succeeds.  Any successful readdir leaves the handle buffer holding
exactly the returned buffer, and every subsequent readdir on that handle
either fails or returns the identical triple — in particular every pair of
successful readdirs on one handle returns byte-identical buffers. -/
theorem readdir_handle_stability (c : Conf) (t : DirTree) (ino : Nat) (en : DirEntry)
    (off : Int) (d : DirOpData) (now : Int) (env : ListingOutcome)
    (hen : alist_lookup t.h_inodes ino = some en)
    (hdir : en.type = DirEntryType.DET_dir) :
    (d.buf = none → 0 < off → dir_tree_is_cache_expired c now en = true →
      dir_tree_fill_dir_buf c t ino off (some d) now env = (t, some d, ReaddirResult.failure)) ∧
    (d.buf = none → 0 < off → dir_tree_is_cache_expired c now en = false →
      dir_tree_fill_dir_buf c t ino off (some d) now env =
        (t, some { buf := some (en.dir_cache.getD []) },
         ReaddirResult.ok (en.dir_cache.getD []))) ∧
    (∀ t1 dop1 b,
      dir_tree_fill_dir_buf c t ino off (some d) now env = (t1, dop1, ReaddirResult.ok b) →
      dop1 = some { buf := some b } ∧
      ∀ off2 now2 env2,
        dir_tree_fill_dir_buf c t1 ino off2 dop1 now2 env2 = (t1, dop1, ReaddirResult.ok b) ∨
        (dir_tree_fill_dir_buf c t1 ino off2 dop1 now2 env2).2.2 = ReaddirResult.failure) := by
  refine ⟨?_, ?_, ?_⟩
  · intro hbuf hoff hexp
    simp [dir_tree_fill_dir_buf, hen, hdir, hbuf, hexp, hoff, not_lt_of_gt hoff]
  · intro hbuf hoff hexp
    simp [dir_tree_fill_dir_buf, hen, hdir, hbuf, hexp]
  · intro t1 dop1 b hres
    have hmain : dop1 = some { buf := some b } := by
      rcases fill_dop_shape c t ino d off now env with ⟨t2, blob, hshape⟩ | hfail
      · rw [hres] at hshape
        simp only [Prod.mk.injEq, ReaddirResult.ok.injEq] at hshape
        obtain ⟨-, h2, h3⟩ := hshape
        subst h3
        exact h2
      · rw [hres] at hfail
        exact absurd hfail (by simp)
    refine ⟨hmain, ?_⟩
    intro off2 now2 env2
    rcases h1 : alist_lookup t1.h_inodes ino with _ | e1
    · right; simp [dir_tree_fill_dir_buf, h1]
    · by_cases h2 : e1.type = DirEntryType.DET_dir
      · left
        simp [dir_tree_fill_dir_buf, h1, h2, hmain]
      · right; simp [dir_tree_fill_dir_buf, h1, h2]

/-- C2 witness: a continuation readdir (`off = 3`) on an unpopulated
handle over the fresh cache of `treeTomb`'s root succeeds and copies the
directory cache into the handle. -/
theorem readdir_handle_stability_witness :
    dir_tree_fill_dir_buf conf0 treeTomb 1 3 (some { buf := none }) 60
        ListingOutcome.poolFail =
      (treeTomb, some { buf := some (dirTombParent.dir_cache.getD []) },
       ReaddirResult.ok (dirTombParent.dir_cache.getD [])) :=
  (readdir_handle_stability conf0 treeTomb 1 dirTombParent 3 { buf := none } 60
    ListingOutcome.poolFail (by decide) (by decide)).2.1 (by decide) (by decide) (by decide)

/-- C2 counterexample: a readdir with `offset = 3 > 0` on a handle whose
buffer has not been populated does not fail when the directory cache is
fresh — it succeeds, returning the cached buffer — contradicting the
claim that such a read fails. -/
theorem readdir_offset_no_buffer_succeeds_cex :
    (dir_tree_fill_dir_buf conf0 treeTomb 1 3 (some { buf := none }) 60
        ListingOutcome.poolFail).2.2 =
      ReaddirResult.ok [{ name := ".", ino := 1, size := 0 },
                        { name := "..", ino := 1, size := 0 }] ∧
    (dir_tree_fill_dir_buf conf0 treeTomb 1 3 (some { buf := none }) 60
        ListingOutcome.poolFail).2.2 ≠ ReaddirResult.failure := by decide


/-- The directory buffer always holds at least the "." and ".." items. -/
theorem build_dir_blob_pos (t : DirTree) (ino : Nat) (e : DirEntry) :
    0 < (build_dir_blob t ino e).length := by
  have key : ∀ (l : List (String × Nat)) (init : List DirItem),
      init.length ≤ (l.foldl (fun acc p =>
        match alist_lookup t.h_inodes p.2 with
        | none => acc
        | some ce =>
          if decide (ce.age ≥ e.age) && !ce.removed then
            acc ++ [{ name := ce.basename, ino := ce.ino, size := ce.size }]
          else acc) init).length := by
    intro l
    induction l with
    | nil => intro init; simp
    | cons a l ih =>
      intro init
      rcases ha : alist_lookup t.h_inodes a.2 with _ | ce
      · simp only [List.foldl_cons, ha]
        exact ih init
      · simp only [List.foldl_cons, ha]
        by_cases hc : (decide (ce.age ≥ e.age) && !ce.removed) = true
        · rw [if_pos hc]
          exact le_trans (by simp) (ih _)
        · rw [if_neg hc]
          exact ih init
  exact lt_of_lt_of_le (by simp)
    (key e.h_children
      [{ name := ".", ino := ino, size := 0 }, { name := "..", ino := ino, size := 0 }])

/-- A lookup against a parent whose cache is fresh never dispatches a
listing refresh: every remaining branch of `dir_tree_lookup` completes or
dispatches a HEAD. -/
theorem lookup_step_not_refresh (c : Conf) (t : DirTree) (p : Nat) (n : String) (now : Int)
    (de : DirEntry)
    (hp : alist_lookup t.h_inodes p = some de)
    (hexp : dir_tree_is_cache_expired c now de = false) :
    (dir_tree_lookup_step c t p n now).2 ≠ LookupAction.dispatchRefresh := by
  by_cases hd : de.type = DirEntryType.DET_dir
  · simp only [dir_tree_lookup_step, hp]
    rw [if_neg (by simp [hd]), if_neg (by simp [hexp])]
    rcases hc : alist_lookup de.h_children n with _ | ci
    · simp [hc]
    · simp only [hc]
      rcases he : alist_lookup t.h_inodes ci with _ | en
      · simp [he]
      · simp only [he]
        repeat' split
        all_goals simp
  · simp [dir_tree_lookup_step, hp, hd]

/-- A successful listing-refresh completion leaves the directory with a
freshly stamped, non-empty cache: the next cache-expiry test fails. -/
theorem fill_cb_true_fresh (c : Conf) (t : DirTree) (ino : Nat) (dop : Option DirOpData)
    (now : Int) (hnow : 0 < now) :
    (dir_tree_fill_on_dir_buf_cb t ino dop true now).2.2 = ReaddirResult.failure ∨
    ∃ en2, alist_lookup (dir_tree_fill_on_dir_buf_cb t ino dop true now).1.h_inodes ino =
      some en2 ∧ dir_tree_is_cache_expired c now en2 = false := by
  rcases h : alist_lookup t.h_inodes ino with _ | en0
  · left; simp [dir_tree_fill_on_dir_buf_cb, h]
  · right
    set en1 : DirEntry := { en0 with dir_cache_updating := false, is_modified := false } with he1
    set t1 : DirTree := { t with h_inodes := alist_insert t.h_inodes ino en1 } with ht1
    set blob : List DirItem := build_dir_blob t1 ino en1 with hb
    refine ⟨{ en1 with dir_cache := some blob, dir_cache_created := now }, ?_, ?_⟩
    · simp [dir_tree_fill_on_dir_buf_cb, h, alist_lookup_insert, he1, ht1, hb]
    · have hpos := build_dir_blob_pos t1 ino en1
      have hz : ¬ (blob.length = 0 ∨ now = 0) := by
        rw [hb]
        omega
      have h0 : ¬ (now - now > (c.dir_cache_max_time : Int)) := by omega
      simp [dir_tree_is_cache_expired, DirEntry.dirCacheSize, hz, h0, he1]
      exact ⟨by rw [hb]; exact List.length_pos.mp hpos, by omega⟩

/-- The refresh dispatched by a lookup (a `dir_tree_fill_dir_buf` call with
offset 0 and no request handle, against an expired cache) either fails or
leaves the parent's cache fresh at the same instant. -/
theorem fill_ok_retry_fresh (c : Conf) (t : DirTree) (ino : Nat) (now : Int)
    (env : ListingOutcome) (de : DirEntry) (hnow : 0 < now)
    (hp : alist_lookup t.h_inodes ino = some de)
    (hdir : de.type = DirEntryType.DET_dir)
    (hexp : dir_tree_is_cache_expired c now de = true) :
    (dir_tree_fill_dir_buf c t ino 0 none now env).2.2 = ReaddirResult.failure ∨
    ∃ en2, alist_lookup (dir_tree_fill_dir_buf c t ino 0 none now env).1.h_inodes ino =
      some en2 ∧ dir_tree_is_cache_expired c now en2 = false := by
  simp only [dir_tree_fill_dir_buf, hp]
  rw [if_neg (by simp [hdir])]
  simp only [hexp]
  rw [if_neg (by simp : ¬ ((0 : Int) > 0))]
  by_cases hdisp : (!({ de with dir_cache := none } : DirEntry).dir_cache_updating &&
      (decide (({ de with dir_cache := none } : DirEntry).dir_cache_created = 0) ||
       decide (now - ({ de with dir_cache := none } :
         DirEntry).dir_cache_created > (c.dir_cache_max_time : Int)))) = true
  · rw [if_pos hdisp]
    rcases env with _ | _ | items
    · left; simp
    · left
      simp only [get_directory_listing]
      exact fill_cb_false_fails _ ino none now
    · simp only [get_directory_listing]
      exact fill_cb_true_fresh c _ ino none now hnow
  · rw [if_neg hdisp]
    exact fill_cb_true_fresh c _ ino none now hnow

/-- C9: a lookup that finds the parent's cache expired dispatches a listing
refresh (with the continuation `dir_tree_on_lookup_read`, which retries the
lookup exactly once on success and reports failure otherwise); and
whenever that refresh completes successfully, the retried lookup sees a
fresh cache and cannot dispatch another refresh — the refresh-and-retry
cycle is bounded to one. -/
theorem lookup_refresh_retry_bounded (c : Conf) (t : DirTree) (p : Nat) (n : String)
    (now : Int) (env : ListingOutcome) (de : DirEntry)
    (hnow : 0 < now)
    (hp : alist_lookup t.h_inodes p = some de)
    (hdir : de.type = DirEntryType.DET_dir)
    (hexp : dir_tree_is_cache_expired c now de = true) :
    dir_tree_lookup_step c t p n now = (t, LookupAction.dispatchRefresh) ∧
    (∀ t1 dop1 b,
      dir_tree_fill_dir_buf c t p 0 none now env = (t1, dop1, ReaddirResult.ok b) →
      (dir_tree_lookup_step c t1 p n now).2 ≠ LookupAction.dispatchRefresh) := by
  constructor
  · simp [dir_tree_lookup_step, hp, hdir, hexp]
  · intro t1 dop1 b hfill
    rcases fill_ok_retry_fresh c t p now env de hnow hp hdir hexp with
      hfail | ⟨en2, hlook, hfresh⟩
    · rw [hfill] at hfail
      exact absurd hfail (by simp)
    · rw [hfill] at hlook
      exact lookup_step_not_refresh c t1 p n now en2 hlook hfresh

/-- The state after the refresh dispatched by the witness lookup. -/
def c9t1 : DirTree :=
  (dir_tree_fill_dir_buf conf0 treeRF 1 0 none 5 (ListingOutcome.listed [])).1

/-- C9 witness: in `treeRF` (root cache never filled, hence expired) a
lookup of `f` at time 5 dispatches the refresh, and after the refresh
completes successfully with an empty listing, the retried lookup does not
dispatch another refresh. -/
theorem lookup_refresh_retry_bounded_witness :
    dir_tree_lookup_step conf0 treeRF 1 "f" 5 = (treeRF, LookupAction.dispatchRefresh) ∧
    (dir_tree_lookup_step conf0 c9t1 1 "f" 5).2 ≠ LookupAction.dispatchRefresh :=
  ⟨(lookup_refresh_retry_bounded conf0 treeRF 1 "f" 5 (ListingOutcome.listed [])
      (rootD [("f", 2)]) (by decide) (by decide) (by decide) (by decide)).1,
   (lookup_refresh_retry_bounded conf0 treeRF 1 "f" 5 (ListingOutcome.listed [])
      (rootD [("f", 2)]) (by decide) (by decide) (by decide) (by decide)).2 c9t1 none
     [{ name := ".", ino := 1, size := 0 }, { name := "..", ino := 1, size := 0 }]
     (by decide)⟩


/-- A fresh tree for the create/unlink/create chain. -/
def c5t0 : DirTree := dir_tree_create 33188 16877 0

/-- The root entry of `c5t0`. -/
def c5root : DirEntry := (alist_lookup c5t0.h_inodes 1).getD baseEntry

/-- State after the first create of `n` under the root. -/
def c5t1 : DirTree := (dir_tree_file_create c5t0 1 "n" 33188 1).1

/-- State after the successful unlink of `n`. -/
def c5t2 : DirTree := (dir_tree_file_unlink c5t1 1 "n" (some true)).1

/-- C5 counterexample: the first create of `n` under the root yields inode 2;
after a successful unlink the entry is tombstoned in place; the second
create reuses the same inode 2 instead of allocating a fresh one. -/
theorem create_unlink_create_fresh_inode_cex :
    (dir_tree_file_create c5t0 1 "n" 33188 1).2 = some 2 ∧
    (dir_tree_file_unlink c5t1 1 "n" (some true)).2 = true ∧
    (alist_lookup c5t2.h_inodes 2).map DirEntry.removed = some true ∧
    (dir_tree_file_create c5t2 1 "n" 33188 2).2 = some 2 := by
  decide

/-- C5 (amended): for the chain create(p, n) then successful unlink(p, n)
then create(p, n), the second create does not allocate a fresh inode: it
finds the tombstoned child still registered under the parent and revives
it in place, so the inode returned by the second create equals the inode
returned by the first create, with the removed flag cleared
(dir_tree_file_create, dir_tree.c:1283-1304; the fresh-inode path
dir_tree_add_entry, dir_tree.c:199-207, is taken only when the name is
absent from the parent, which a tombstone prevents). -/
theorem create_unlink_create_reuses_inode (t : DirTree) (p : Nat) (n : String) (m : Nat)
    (now1 now2 : Int) (de : DirEntry)
    (hp : alist_lookup t.h_inodes p = some de)
    (hdir : de.type = DirEntryType.DET_dir)
    (hne : p ≠ 0) (hlt : p < t.max_ino)
    (hnew : alist_lookup de.h_children n = none) :
    ∀ t1 i1, dir_tree_file_create t p n m now1 = (t1, some i1) →
    ∀ t2 r, dir_tree_file_unlink t1 p n (some true) = (t2, r) →
    ∀ t3 i2, dir_tree_file_create t2 p n m now2 = (t3, some i2) →
    i2 = i1 ∧ (alist_lookup t3.h_inodes i1).map DirEntry.removed = some false := by
  intro t1 i1 hres1 t2 r hres2 t3 i2 hres3
  have hpm : p ≠ t.max_ino := by omega
  simp only [dir_tree_file_create, hp] at hres1
  rw [if_neg (by simp [hdir])] at hres1
  simp only [hnew] at hres1
  rcases hadd : dir_tree_add_entry t n m DirEntryType.DET_file p 0 now1 now1 with _ | ta
  · rw [hadd] at hres1
    simp at hres1
  · obtain ⟨hia, hmax, hlook, hlp, hframe⟩ :=
      dir_tree_add_entry_spec t n m DirEntryType.DET_file p 0 now1 now1 de ta.1 ta.2
        hp hdir hne hlt (by rw [hadd])
    rw [hadd] at hres1
    simp only [hlook] at hres1
    simp only [Prod.mk.injEq, Option.some.injEq] at hres1
    obtain ⟨ht1, hi1⟩ := hres1
    subst hi1
    subst ht1
    have hmp : ta.2 ≠ p := by omega
    set newE : DirEntry := newEntryOf t n m DirEntryType.DET_file p 0 now1 now1 de with hnewE
    set en1m : DirEntry := { newE with is_modified := true } with hen1m
    set pe1 : DirEntry := { de with dir_cache := none, h_dir_tree := some (alist_insert de.h_children n t.max_ino) } with hpe1
    have hcol : ({ pe1 with dir_cache := none } : DirEntry) = pe1 := by rw [hpe1]
    have hpe1t : pe1.type = DirEntryType.DET_dir := by rw [hpe1]; exact hdir
    have f1 : alist_lookup (alist_insert ta.1.h_inodes ta.2 en1m) p = some pe1 := by
      rw [alist_lookup_insert_ne _ _ _ _ hmp]
      exact hlp
    have f2 : alist_lookup (alist_insert ta.1.h_inodes ta.2 en1m) ta.2 = some en1m :=
      alist_lookup_insert _ _ _
    have f3 : alist_lookup pe1.h_children n = some ta.2 := by
      rw [hia, hpe1]
      exact alist_lookup_insert _ _ _
    simp only [dir_tree_file_unlink, f1, f3, dir_tree_file_remove, f2] at hres2
    rw [if_neg (by rw [hnewE]; simp [newEntryOf])] at hres2
    simp only [dir_tree_file_remove_on_con_data_cb, f2] at hres2
    set en1r : DirEntry := { en1m with removed := true, age := 0 } with hen1r
    have hen1rt : en1r.type = DirEntryType.DET_file := by
      rw [hen1r, hen1m, hnewE]; rfl
    have g0 : alist_lookup (alist_insert (alist_insert ta.1.h_inodes ta.2 en1m) ta.2 en1r)
        ta.2 = some en1r := alist_lookup_insert _ _ _
    have hparp : en1r.parent_ino = p := by rw [hen1r, hen1m, hnewE]; rfl
    have g0p : alist_lookup (alist_insert (alist_insert ta.1.h_inodes ta.2 en1m) ta.2 en1r)
        en1r.parent_ino = some pe1 := by
      rw [hparp, alist_lookup_insert_ne _ _ _ _ hmp, alist_lookup_insert_ne _ _ _ _ hmp]
      exact hlp
    rw [entry_modified_of_file _ ta.2 en1r pe1 g0 hen1rt g0p hpe1t] at hres2
    rw [hparp] at hres2
    rw [hcol] at hres2
    simp only [Prod.mk.injEq] at hres2
    obtain ⟨ht2, -⟩ := hres2
    subst ht2
    set L2 : List (Nat × DirEntry) :=
      alist_insert (alist_insert (alist_insert ta.1.h_inodes ta.2 en1m) ta.2 en1r) p pe1
      with hL2
    have g1 : alist_lookup L2 p = some pe1 := alist_lookup_insert _ _ _
    have g3 : alist_lookup L2 ta.2 = some en1r := by
      rw [hL2, alist_lookup_insert_ne _ _ _ _ (Ne.symm hmp)]
      exact alist_lookup_insert _ _ _
    simp only [dir_tree_file_create, g1] at hres3
    rw [if_neg (by simp [hdir])] at hres3
    simp only [f3, g3] at hres3
    set en2a : DirEntry := { en1r with removed := false, access_time := now2, age := de.age } with hen2a
    have k1 : alist_lookup (alist_insert L2 ta.2 en2a) p = some pe1 := by
      rw [alist_lookup_insert_ne _ _ _ _ hmp]
      exact g1
    rw [entry_modified_of_dir _ p pe1 k1 hpe1t] at hres3
    rw [hcol] at hres3
    have k2 : alist_lookup (alist_insert (alist_insert L2 ta.2 en2a) p pe1) ta.2
        = some en2a := by
      rw [alist_lookup_insert_ne _ _ _ _ (Ne.symm hmp)]
      exact alist_lookup_insert _ _ _
    simp only [k2] at hres3
    simp only [Prod.mk.injEq, Option.some.injEq] at hres3
    obtain ⟨ht3, hi2⟩ := hres3
    subst hi2
    subst ht3
    refine ⟨rfl, ?_⟩
    have k3 : alist_lookup (alist_insert (alist_insert (alist_insert L2 ta.2 en2a) p pe1)
        ta.2 { en2a with is_modified := true }) ta.2
        = some { en2a with is_modified := true } := alist_lookup_insert _ _ _
    simp only [k3]
    rfl

/-- C5 witness: the chain at the concrete tree, with inode 2 reused. -/
theorem create_unlink_create_reuses_inode_witness :
    2 = 2 ∧ (alist_lookup (dir_tree_file_create c5t2 1 "n" 33188 2).1.h_inodes 2).map
      DirEntry.removed = some false :=
  create_unlink_create_reuses_inode c5t0 1 "n" 33188 1 2 c5root
    (by decide) (by decide) (by decide) (by decide) (by decide)
    c5t1 2 (by decide) c5t2 true (by decide)
    (dir_tree_file_create c5t2 1 "n" 33188 2).1 2 (by decide)


end YarfDirTree
